import Mathlib

/-!
# Unidad4.cpp: ragdoll cannon

A shallow embedding of `src/Build/Unidad4.cpp` and the properties of its
specification.

* C++ `float` values are elements of a linearly ordered field `F`.  The
  program as a whole is read with exact arithmetic; every definition of it
  is computable and runs at `F = ℚ`, and statements about `atan2`, `cos` and
  `sin` are read at `F = ℝ`.
* The scale conversions (lines 13-19) and the launch velocity (lines 192 and
  200) are also read in binary32, every operation rounded to the nearest
  `float`: the properties about them assert identities between representable
  values, which rounding decides.
* `b2Body*` and `b2Joint*` are indices into the lists of bodies and joints
  of the world, in creation order.
* The global `b2World world` is passed explicitly, and so are the time and
  the mouse position an event handler reads.
* The physics engine is a collaborator outside the repository; the
  operations the program calls are modelled from the specification.
-/

namespace Unidad4

/-! ## Constants and vectors -/

/-- The constant `const float SCALE = 30.f`. -/
def SCALE {F : Type} [LinearOrderedField F] : F := 30

/-- The constant `const int WIDTH = 800`. -/
def WIDTH : Int := 800

/-- The constant `const int HEIGHT = 600`. -/
def HEIGHT : Int := 600

/-- Simulation-space vector `b2Vec2`. -/
structure b2Vec2 (F : Type) where
  x : F
  y : F
deriving DecidableEq, Repr

/-- Screen-space vector `sf::Vector2f`. -/
structure Vector2f (F : Type) where
  x : F
  y : F
deriving DecidableEq, Repr

instance {F : Type} [Add F] : Add (b2Vec2 F) := ⟨fun a b => ⟨a.x + b.x, a.y + b.y⟩⟩

instance {F : Type} [Sub F] : Sub (Vector2f F) := ⟨fun a b => ⟨a.x - b.x, a.y - b.y⟩⟩

section Model

variable {F : Type} [LinearOrderedField F]

/-- Source lines 17-19: `sfToB2` divides both coordinates by `SCALE`. -/
def sfToB2 (v : Vector2f F) : b2Vec2 F := ⟨v.x / SCALE, v.y / SCALE⟩

/-! ## The physics engine collaborator

Box2D is not part of the repository sources.  The operations the program
consumes are modelled from the spec (§3, §4.2, §4.3, §6). -/

/-- Modelled from the spec: the body type tag of the engine (`b2BodyType`).
The spec names STATIC and DYNAMIC; the engine's third tag is kept so that
"every assignment of body types" covers it as well. -/
inductive b2BodyType where
  | b2_staticBody
  | b2_kinematicBody
  | b2_dynamicBody
deriving DecidableEq, Repr

/-- Modelled from the spec: the two shapes of §3, a circle with its radius
(`b2CircleShape::m_radius`) and a box given by its half extents
(`b2PolygonShape::SetAsBox(hx, hy)`). -/
inductive b2Shape (F : Type) where
  | e_circle (m_radius : F)
  | e_polygon (hx hy : F)
deriving DecidableEq, Repr

/-- Modelled from the spec: a fixture is a shape with the physical
properties density, friction and restitution (§3, §6). -/
structure b2Fixture (F : Type) where
  shape : b2Shape F
  density : F
  friction : F
  restitution : F
deriving DecidableEq, Repr

/-- Modelled from the spec: a body (§3) with its type tag, position,
velocity, fixtures and current mass. -/
structure b2Body (F : Type) where
  type : b2BodyType
  position : b2Vec2 F
  linearVelocity : b2Vec2 F
  fixtures : List (b2Fixture F)
  mass : F
deriving DecidableEq, Repr

/-- Modelled from the spec: a revolute joint binds two bodies at a shared
anchor point (§3); this is what `b2RevoluteJointDef::Initialize(bodyA,
bodyB, anchor)` records. -/
structure b2RevoluteJointDef (F : Type) where
  bodyA : Nat
  bodyB : Nat
  anchor : b2Vec2 F
deriving DecidableEq, Repr

/-- Modelled from the spec: World State (§2) owns all bodies and joints.
`setTypeCalls` is a ghost record of the `SetType` calls made so far (the
body and the requested type, oldest first); no operation reads it. -/
structure b2World (F : Type) where
  bodies : List (b2Body F)
  joints : List (b2RevoluteJointDef F)
  setTypeCalls : List (Nat × b2BodyType)
deriving DecidableEq, Repr

/-- The world right after `b2World world(b2Vec2(0.f, 9.8f))` (line 11). -/
def b2World.empty : b2World F := ⟨[], [], []⟩

/-- The definition `b2BodyDef`: the fields the program sets. -/
structure b2BodyDef (F : Type) where
  type : b2BodyType
  position : b2Vec2 F
deriving DecidableEq, Repr

/-- Modelled from the spec: the engine's value of pi used for the area of a
circle (Box2D's `b2_pi`). -/
def b2_pi : F := 3.14159265359

/-- Modelled from the spec: the mass a fixture contributes, density times
the area of its shape. -/
def b2Fixture.ComputeMass (f : b2Fixture F) : F :=
  match f.shape with
  | .e_circle r => f.density * b2_pi * r * r
  | .e_polygon hx hy => f.density * ((2 * hx) * (2 * hy))

/-- Apply `f` to the body behind handle `b`; other bodies are untouched. -/
def b2World.modifyBody (w : b2World F) (b : Nat) (f : b2Body F → b2Body F) : b2World F :=
  { w with bodies := w.bodies.modify f b }

/-- Modelled from the spec: `b2World::CreateBody` registers a new body
with the given type and position, no fixtures, at rest, and returns its
handle. -/
def b2World.CreateBody (w : b2World F) (d : b2BodyDef F) : Nat × b2World F :=
  (w.bodies.length,
    { w with bodies := w.bodies ++ [⟨d.type, d.position, ⟨0, 0⟩, [], 0⟩] })

/-- Modelled from the spec: `b2Body::GetType`; `none` for a handle that
names no body of the world. -/
def b2World.GetType (w : b2World F) (b : Nat) : Option b2BodyType :=
  w.bodies[b]?.map (·.type)

/-- Modelled from the spec: the mass `b2Body::GetMassData` reads back;
`none` for a handle that names no body of the world. -/
def b2World.GetMass (w : b2World F) (b : Nat) : Option F :=
  w.bodies[b]?.map (·.mass)

/-- Modelled from the spec: `b2Body::ResetMassData` recomputes the mass
from the fixtures (§4.3); a body that is not DYNAMIC has zero mass. -/
def b2World.ResetMassData (w : b2World F) (b : Nat) : b2World F :=
  w.modifyBody b fun body =>
    { body with
      mass := if body.type = .b2_dynamicBody
        then (body.fixtures.map b2Fixture.ComputeMass).sum else 0 }

/-- Modelled from the spec: `b2Body::CreateFixture` attaches a fixture and,
when its density is positive, refreshes the mass data. -/
def b2World.CreateFixture (w : b2World F) (b : Nat) (f : b2Fixture F) : b2World F :=
  let w1 := w.modifyBody b fun body => { body with fixtures := f :: body.fixtures }
  if 0 < f.density then w1.ResetMassData b else w1

/-- Modelled from the spec: `CreateFixture(&shape, density)` uses the
default friction and restitution of the engine. -/
def b2World.CreateFixtureShape (w : b2World F) (b : Nat) (s : b2Shape F) (density : F) :
    b2World F :=
  w.CreateFixture b ⟨s, density, 0.2, 0⟩

/-- Modelled from the spec: `b2Body::SetLinearVelocity`. -/
def b2World.SetLinearVelocity (w : b2World F) (b : Nat) (v : b2Vec2 F) : b2World F :=
  w.modifyBody b fun body => { body with linearVelocity := v }

/-- Modelled from the spec: `b2Body::SetType` changes the type tag.  The
spec (§4.3) describes an engine where the type change alone leaves the
mass untouched (`massOnSetType = false`); `massOnSetType = true` is an
engine that also recomputes the mass data inside `SetType`. -/
def b2World.SetType (massOnSetType : Bool) (w : b2World F) (b : Nat) (t : b2BodyType) :
    b2World F :=
  let w1 := { w.modifyBody b fun body => { body with type := t } with
    setTypeCalls := w.setTypeCalls ++ [(b, t)] }
  if massOnSetType then w1.ResetMassData b else w1

/-- Modelled from the spec: `b2Body::GetWorldCenter`.  Every shape of the
program is centred on the origin of its body, so the centre of mass is the
body position (§4.1: `position` is the torso centre). -/
def b2World.GetWorldCenter (w : b2World F) (b : Nat) : b2Vec2 F :=
  match w.bodies[b]? with
  | some body => body.position
  | none => ⟨0, 0⟩

/-- Modelled from the spec: `b2World::CreateJoint` registers the joint and
returns its handle. -/
def b2World.CreateJoint (w : b2World F) (d : b2RevoluteJointDef F) : Nat × b2World F :=
  (w.joints.length, { w with joints := w.joints ++ [d] })

/-! ## Rig Builder: `createRagdoll` (lines 21-87) -/

/-- Source lines 21-24: `struct Ragdoll`. -/
structure Ragdoll where
  parts : List Nat
  joints : List Nat
deriving DecidableEq, Repr

/-- Source lines 56-69, one pass of the arm loop for `i`. -/
def createRagdoll.arm (torsoDef : b2BodyDef F) (torso : Nat) (initialVelocity : b2Vec2 F)
    (torsoW torsoH limbW limbH : F) (st : Ragdoll × b2World F) (i : Int) :
    Ragdoll × b2World F :=
  let (ragdoll, w) := st
  let armDef : b2BodyDef F := { torsoDef with
    position := w.GetWorldCenter torso + ⟨i * (torsoW / 2 + limbW / 2), -torsoH / 4⟩ }
  let (arm, w) := w.CreateBody armDef
  let w := w.CreateFixtureShape arm (.e_polygon (limbW / 2) (limbH / 2)) 1
  let w := w.SetLinearVelocity arm initialVelocity
  let ragdoll := { ragdoll with parts := ragdoll.parts ++ [arm] }
  let shoulder : b2RevoluteJointDef F :=
    ⟨torso, arm, w.GetWorldCenter torso + ⟨i * torsoW / 2, -torsoH / 4⟩⟩
  let (j, w) := w.CreateJoint shoulder
  ({ ragdoll with joints := ragdoll.joints ++ [j] }, w)

/-- Source lines 71-84, one pass of the leg loop for `i`. -/
def createRagdoll.leg (torsoDef : b2BodyDef F) (torso : Nat) (initialVelocity : b2Vec2 F)
    (torsoW torsoH limbW limbH : F) (st : Ragdoll × b2World F) (i : Int) :
    Ragdoll × b2World F :=
  let (ragdoll, w) := st
  let legDef : b2BodyDef F := { torsoDef with
    position := w.GetWorldCenter torso + ⟨i * torsoW / 4, torsoH / 2 + limbH / 2⟩ }
  let (leg, w) := w.CreateBody legDef
  let w := w.CreateFixtureShape leg (.e_polygon (limbW / 2) (limbH / 2)) 1
  let w := w.SetLinearVelocity leg initialVelocity
  let ragdoll := { ragdoll with parts := ragdoll.parts ++ [leg] }
  let hip : b2RevoluteJointDef F :=
    ⟨torso, leg, w.GetWorldCenter torso + ⟨i * torsoW / 4, torsoH / 2⟩⟩
  let (j, w) := w.CreateJoint hip
  ({ ragdoll with joints := ragdoll.joints ++ [j] }, w)

/-- Source lines 26-87: `createRagdoll(position, initialVelocity)` acting on
the world `w`; returns the ragdoll handle and the new world.  The two
`for (int i = -1; i <= 1; i += 2)` loops run for `i = -1` and `i = 1`; the
density `1.0f` is the literal `1`. -/
def createRagdoll (w : b2World F) (position initialVelocity : b2Vec2 F) :
    Ragdoll × b2World F :=
  let ragdoll : Ragdoll := ⟨[], []⟩
  let torsoW : F := 0.6
  let torsoH : F := 1.2
  let limbW : F := 0.3
  let limbH : F := 0.6
  let headR : F := 0.35
  let torsoDef : b2BodyDef F := ⟨.b2_dynamicBody, position⟩
  let (torso, w) := w.CreateBody torsoDef
  let w := w.CreateFixtureShape torso (.e_polygon (torsoW / 2) (torsoH / 2)) 1
  let w := w.SetLinearVelocity torso initialVelocity
  let ragdoll := { ragdoll with parts := ragdoll.parts ++ [torso] }
  let headDef : b2BodyDef F := { torsoDef with
    position := position + ⟨0, -torsoH / 2 - headR⟩ }
  let (head, w) := w.CreateBody headDef
  let w := w.CreateFixtureShape head (.e_circle headR) 1
  let w := w.SetLinearVelocity head initialVelocity
  let ragdoll := { ragdoll with parts := ragdoll.parts ++ [head] }
  let neckJoint : b2RevoluteJointDef F :=
    ⟨torso, head, w.GetWorldCenter torso + ⟨0, -torsoH / 2⟩⟩
  let (j, w) := w.CreateJoint neckJoint
  let ragdoll := { ragdoll with joints := ragdoll.joints ++ [j] }
  let st := ([-1, 1] : List Int).foldl
    (createRagdoll.arm torsoDef torso initialVelocity torsoW torsoH limbW limbH) (ragdoll, w)
  ([-1, 1] : List Int).foldl
    (createRagdoll.leg torsoDef torso initialVelocity torsoW torsoH limbW limbH) st

/-- Modelled from the spec: `b2Body::GetPosition`. -/
def b2World.GetPosition (w : b2World F) (b : Nat) : Option (b2Vec2 F) :=
  w.bodies[b]?.map (·.position)

/-- The shapes of the fixtures of body `b`. -/
def b2World.GetShapes (w : b2World F) (b : Nat) : Option (List (b2Shape F)) :=
  w.bodies[b]?.map fun body => body.fixtures.map (·.shape)

/-- The two bodies joint `j` connects (`GetBodyA()`, `GetBodyB()`). -/
def b2World.jointBodies (w : b2World F) (j : Nat) : Option (Nat × Nat) :=
  w.joints[j]?.map fun d => (d.bodyA, d.bodyB)

/-- The world anchor joint `j` was initialised with. -/
def b2World.jointAnchor (w : b2World F) (j : Nat) : Option (b2Vec2 F) :=
  w.joints[j]?.map (·.anchor)

/-- A box of full width `wd` and full height `ht` (`SetAsBox` takes the half
extents). -/
def box (wd ht : F) : b2Shape F := .e_polygon (wd / 2) (ht / 2)

/-! ## Scene bootstrap: `createBox` (lines 89-106) -/

/-- Source lines 89-106: `createBox(position, size, isDynamic)`. -/
def createBox (w : b2World F) (position size : b2Vec2 F) (isDynamic : Bool) :
    Nat × b2World F :=
  let bodyDef : b2BodyDef F :=
    ⟨if isDynamic then .b2_dynamicBody else .b2_staticBody, position⟩
  let (body, w) := w.CreateBody bodyDef
  let w := w.CreateFixture body ⟨.e_polygon (size.x / 2) (size.y / 2), 1, 0.5, 0.1⟩
  (body, w)

/-! ## Activation Tracker: `MyContactListener` (lines 108-134) -/

/-- Insertion into a `std::set<b2Body*>`, kept as a strictly increasing list
of handles: an element already present is not inserted again. -/
def setInsert (x : Nat) : List Nat → List Nat
  | [] => [x]
  | y :: ys =>
    if x < y then x :: y :: ys
    else if x = y then y :: ys
    else y :: setInsert x ys

theorem mem_setInsert (x y : Nat) (l : List Nat) : y ∈ setInsert x l ↔ y = x ∨ y ∈ l := by
  induction l with
  | nil => simp [setInsert]
  | cons z zs ih =>
    unfold setInsert
    split_ifs with h1 h2
    · simp
    · subst h2; simp
    · simp [ih]; tauto

theorem setInsert_sorted (x : Nat) (l : List Nat) (h : l.Sorted (· < ·)) :
    (setInsert x l).Sorted (· < ·) := by
  induction l with
  | nil => simp [setInsert]
  | cons z zs ih =>
    have hz := List.sorted_cons.mp h
    unfold setInsert
    split_ifs with h1 h2
    · refine List.sorted_cons.mpr ⟨?_, h⟩
      intro b hb
      rcases List.mem_cons.mp hb with rfl | hb
      · exact h1
      · exact lt_trans h1 (hz.1 b hb)
    · exact h
    · refine List.sorted_cons.mpr ⟨?_, ih hz.2⟩
      intro b hb
      rcases (mem_setInsert x b zs).mp hb with rfl | hb
      · omega
      · exact hz.1 b hb

/-- The container `std::set<b2Body*>`: its elements in iteration order, which is
strictly increasing. -/
structure StdSet where
  elems : List Nat
  sorted : elems.Sorted (· < ·)

instance : DecidableEq StdSet := fun a b =>
  decidable_of_iff (a.elems = b.elems) (by cases a; cases b; simp)

instance : Membership Nat StdSet := ⟨fun s x => x ∈ s.elems⟩

instance (x : Nat) (s : StdSet) : Decidable (x ∈ s) :=
  inferInstanceAs (Decidable (x ∈ s.elems))

/-- The empty set, as constructed and as left by `clear()`. -/
def StdSet.empty : StdSet := ⟨[], List.sorted_nil⟩

/-- The call `std::set::insert`. -/
def StdSet.insert (s : StdSet) (x : Nat) : StdSet :=
  ⟨setInsert x s.elems, setInsert_sorted x s.elems s.sorted⟩

/-- Source lines 108-114: the fields of `MyContactListener`. -/
structure MyContactListener where
  boxBody : Nat
  circleBody : Nat
  toActivate : StdSet
deriving DecidableEq

/-- A contact as `BeginContact` reads it: the bodies owning fixture A and
fixture B (`contact->GetFixtureA()->GetBody()` and likewise for B). -/
structure b2Contact where
  bodyA : Nat
  bodyB : Nat
deriving DecidableEq, Repr

/-- Source lines 116-133: `MyContactListener::BeginContact`; body types are
read from the world `w`. -/
def MyContactListener.BeginContact (l : MyContactListener) (w : b2World F)
    (contact : b2Contact) : MyContactListener :=
  let bodyA := contact.bodyA
  let bodyB := contact.bodyB
  if (bodyA = l.boxBody ∨ bodyA = l.circleBody) ∧
      w.GetType bodyB = some .b2_dynamicBody then
    if w.GetType bodyA = some .b2_staticBody then
      { l with toActivate := l.toActivate.insert bodyA }
    else l
  else if (bodyB = l.boxBody ∨ bodyB = l.circleBody) ∧
      w.GetType bodyA = some .b2_dynamicBody then
    if w.GetType bodyB = some .b2_staticBody then
      { l with toActivate := l.toActivate.insert bodyB }
    else l
  else l

/-- The activation rule in the words of the spec (§4.3): `t` is one of the
two trigger bodies, `t` is currently STATIC and the other body of the pair is
currently DYNAMIC. -/
def ActivationRule (l : MyContactListener) (w : b2World F) (t other : Nat) : Prop :=
  (t = l.boxBody ∨ t = l.circleBody) ∧ w.GetType t = some .b2_staticBody ∧
    w.GetType other = some .b2_dynamicBody

instance (l : MyContactListener) (w : b2World F) (t other : Nat) :
    Decidable (ActivationRule l w t other) := by
  unfold ActivationRule; infer_instance

/-- A contact-begin notification that qualifies for `t` in the words of the
spec: `t` is one of its two bodies and the activation rule holds for `t`
against the other body. -/
def Qualifies (l : MyContactListener) (w : b2World F) (t : Nat) (c : b2Contact) : Prop :=
  (c.bodyA = t ∧ ActivationRule l w t c.bodyB) ∨ (c.bodyB = t ∧ ActivationRule l w t c.bodyA)

instance (l : MyContactListener) (w : b2World F) (t : Nat) (c : b2Contact) :
    Decidable (Qualifies l w t c) := by
  unfold Qualifies; infer_instance

/-- Source lines 206-211: the body of the activation loop for one member of
`toActivate`. -/
def promote (massOnSetType : Bool) (w : b2World F) (body : Nat) : b2World F :=
  let w := w.SetType massOnSetType body .b2_dynamicBody
  let massData := w.GetMass body
  if massData = some 0 then w.ResetMassData body else w

/-- Source lines 205-213: the activation loop over `toActivate`, followed by
`toActivate.clear()`. -/
def activationDrain (massOnSetType : Bool) (w : b2World F) (l : MyContactListener) :
    b2World F × MyContactListener :=
  (l.toActivate.elems.foldl (promote massOnSetType) w,
    { l with toActivate := StdSet.empty })

/-- Modelled from the spec: `world.Step` (§4.2) delivers every contact-begin
notification of the step to the listener before it returns.  Set types and
fixtures are not touched by the step; the motion of the bodies is not
modelled. -/
def worldStep (w : b2World F) (l : MyContactListener) (contacts : List b2Contact) :
    MyContactListener :=
  contacts.foldl (fun l c => l.BeginContact w c) l

/-! ## Launch Controller (lines 171-202) -/

/-- The functions of `<cmath>` the release handler calls. -/
structure CMath (F : Type) where
  atan2 : F → F → F
  cos : F → F
  sin : F → F

/-- The call `std::min(a, b)`: `b` when `b < a`, else `a`. -/
def std_min (a b : F) : F := if b < a then b else a

/-- Source line 188 (and 218): `sf::Vector2f cannonPos(50, HEIGHT - 50)`. -/
def cannonPos : Vector2f F := ⟨50, ((HEIGHT - 50 : Int) : F)⟩

/-- Source line 192: `angle = atan2(dir.y, dir.x)`. -/
def launchAngle (m : CMath F) (dir : Vector2f F) : F := m.atan2 dir.y dir.x

/-- Source lines 194-197: the launch power for a hold of `timeHeld` seconds. -/
def launchPower (timeHeld : F) : F :=
  let base : F := 6
  let maxPower : F := 20
  let chargeRate : F := 14
  std_min maxPower (base + timeHeld * chargeRate)

/-- Source line 200: `b2Vec2(std::cos(angle) * power, std::sin(angle) * power)`. -/
def launchVelocity (m : CMath F) (angle power : F) : b2Vec2 F :=
  ⟨m.cos angle * power, m.sin angle * power⟩

/-- The mouse buttons of `sf::Mouse::Button`. -/
inductive MouseButton where
  | Left
  | Right
  | Middle
deriving DecidableEq, Repr

/-- The events of `sf::Event` the loop looks at; `Other` is any other event. -/
inductive Event where
  | Closed
  | MouseButtonPressed (button : MouseButton)
  | MouseButtonReleased (button : MouseButton)
  | Other
deriving DecidableEq, Repr

/-- The variables of `main` that live across frames.  `chargeClock` is the
time at which the `sf::Clock` was last restarted. -/
structure MainState (F : Type) where
  world : b2World F
  boxBody : Nat
  wallBody : Nat
  circleBody : Nat
  contactListener : MyContactListener
  ragdolls : List Ragdoll
  chargeClock : F
  charging : Bool
  windowOpen : Bool

/-- Source lines 136-172: the state of `main` when the frame loop is entered
at time `t0`: four boundary walls, the obstacle box, the obstacle wall, the
obstacle circle, the listener, no ragdolls. -/
def setup (t0 : F) : MainState F :=
  let w : b2World F := b2World.empty
  let (_, w) := createBox w ⟨((WIDTH / 2 : Int) : F) / SCALE, (HEIGHT : F) / SCALE⟩
    ⟨(WIDTH : F) / SCALE, 1⟩ false
  let (_, w) := createBox w ⟨0, ((HEIGHT / 2 : Int) : F) / SCALE⟩
    ⟨1, (HEIGHT : F) / SCALE⟩ false
  let (_, w) := createBox w ⟨(WIDTH : F) / SCALE, ((HEIGHT / 2 : Int) : F) / SCALE⟩
    ⟨1, (HEIGHT : F) / SCALE⟩ false
  let (_, w) := createBox w ⟨((WIDTH / 2 : Int) : F) / SCALE, 0⟩
    ⟨(WIDTH : F) / SCALE, 1⟩ false
  let (boxBody, w) := createBox w ⟨13, 11⟩ ⟨3, 3⟩ false
  let (wallBody, w) := createBox w ⟨16, 19⟩ ⟨2, 5⟩ false
  let (circleBody, w) := w.CreateBody ⟨.b2_staticBody, ⟨6, 5⟩⟩
  let w := w.CreateFixture circleBody ⟨.e_circle 1.5, 1, 0.5, 0.1⟩
  { world := w, boxBody := boxBody, wallBody := wallBody, circleBody := circleBody,
    contactListener := ⟨boxBody, circleBody, StdSet.empty⟩,
    ragdolls := [], chargeClock := t0, charging := false, windowOpen := true }

/-- Source lines 185-202: the handler of a left button release at time `now`
with the mouse at pixel `mouse` (`sf::Mouse::getPosition(window)`). -/
def onRelease (m : CMath F) (now : F) (mouse : Int × Int) (s : MainState F) : MainState F :=
  let mousePos : Vector2f F := ⟨(mouse.1 : F), (mouse.2 : F)⟩
  let dir := mousePos - cannonPos
  let angle := launchAngle m dir
  let timeHeld := now - s.chargeClock
  let power := launchPower timeHeld
  let spawnPos := sfToB2 cannonPos
  let (rag, w) := createRagdoll s.world spawnPos (launchVelocity m angle power)
  { s with charging := false, world := w, ragdolls := s.ragdolls ++ [rag] }

/-- Source lines 177-202: the body of the `pollEvent` loop for one event,
handled at time `now` with the mouse at pixel `mouse`. -/
def handleEvent (m : CMath F) (now : F) (mouse : Int × Int) (s : MainState F)
    (event : Event) : MainState F :=
  match event with
  | .Closed => { s with windowOpen := false }
  | .MouseButtonPressed .Left => { s with charging := true, chargeClock := now }
  | .MouseButtonReleased .Left => onRelease m now mouse s
  | _ => s

/-- What one pass of the frame loop receives from outside: the polled
events, each with the time it is handled at and the mouse position then, and
the contact-begin notifications the engine delivers during `world.Step`. -/
structure FrameInput (F : Type) where
  events : List (Event × F × (Int × Int))
  contacts : List b2Contact

/-- Source lines 175-203: the `while (window.pollEvent(event))` loop over the
events polled in one frame. -/
def pollEvents (m : CMath F) (s : MainState F) (events : List (Event × F × (Int × Int))) :
    MainState F :=
  events.foldl (fun s e => handleEvent m e.2.1 e.2.2 s e.1) s

/-- Source lines 175-215: one pass of the frame loop, up to and including
`world.Step`: the events, the activation loop, the step. -/
def frame (m : CMath F) (massOnSetType : Bool) (s : MainState F) (i : FrameInput F) :
    MainState F :=
  let s := pollEvents m s i.events
  let (w, l) := activationDrain massOnSetType s.world s.contactListener
  let l := worldStep w l i.contacts
  { s with world := w, contactListener := l }

/-- Source line 174: `while (window.isOpen())` over the given frames. -/
def mainLoop (m : CMath F) (massOnSetType : Bool) (s : MainState F) :
    List (FrameInput F) → MainState F
  | [] => s
  | i :: is => if s.windowOpen then mainLoop m massOnSetType (frame m massOnSetType s i) is else s

/-! ## Scene Renderer: the ragdoll pass (lines 269-295) -/

/-- The colours of `sf::Color` the program uses. -/
inductive Color where
  | Black
  | White
  | Yellow
  | Green
  | Red
  | Magenta
  | Cyan
  | rgb (r g b : Nat)
deriving DecidableEq, Repr

/-- The two drawables of the render passes. -/
inductive Drawable where
  | ConvexShape
  | CircleShape
deriving DecidableEq, Repr

/-- One `window.draw` call of the ragdoll pass: the part drawn, the drawable
and its fill colour.  Vertex positions and radii are not part of the model. -/
structure DrawCall where
  part : Nat
  drawable : Drawable
  fillColor : Color
deriving DecidableEq, Repr

/-- Modelled from the spec: `b2Body::GetFixtureList` (§6, "query body
list/fixture list"). -/
def b2World.GetFixtureList (w : b2World F) (b : Nat) : List (b2Fixture F) :=
  match w.bodies[b]? with
  | some body => body.fixtures
  | none => []

/-- Source lines 271-293: the draw call for one fixture of a ragdoll part. -/
def drawRagdollFixture (part : Nat) (f : b2Fixture F) : DrawCall :=
  match f.shape with
  | .e_polygon _ _ => ⟨part, .ConvexShape, .Cyan⟩
  | .e_circle _ => ⟨part, .CircleShape, .Magenta⟩

/-- Source lines 269-295: the ragdoll render pass, as the sequence of its
`window.draw` calls. -/
def renderRagdolls (w : b2World F) (ragdolls : List Ragdoll) : List DrawCall :=
  ragdolls.flatMap fun rag =>
    rag.parts.flatMap fun part =>
      (w.GetFixtureList part).map (drawRagdollFixture part)

end Model

/-! ## Binary32 arithmetic

`float` is IEEE 754 binary32: 24 significant bits, results rounded to the
nearest value, ties to the even mantissa. -/

section Rounding

variable {F : Type} [LinearOrderedField F] [FloorRing F]

/-- Rounding to the nearest integer, ties to the even one. -/
def roundEven (q : F) : Int :=
  let f := ⌊q⌋
  let r := q - f
  if r < 1 / 2 then f else if 1 / 2 < r then f + 1 else if f % 2 = 0 then f else f + 1

/-- The binary32 value nearest to `x`, ties to the even mantissa: `x` is
counted in units of `2 ^ (e - 23)`, where `2 ^ e ≤ |x| < 2 ^ (e + 1)`, and the
count is rounded.  The exponent is not bounded, so this is the IEEE 754 result
wherever that is a normal number, from `2 ^ (-126)` up to the largest finite
value in magnitude; overflow and gradual underflow are not modelled. -/
def fl32 (x : F) : F :=
  if x = 0 then 0
  else
    let u : F := 2 ^ (Int.log 2 |x| - 23)
    (if 0 < x then 1 else -1) * (roundEven (|x| / u) : F) * u

/-- The values binary32 holds: an integer of at most 24 bits times a power of
two. -/
def IsFloat (x : F) : Prop := ∃ M k : Int, |M| < 2 ^ 24 ∧ x = M * 2 ^ k

namespace Binary32

/-- Source lines 13-15 in binary32: `b2ToSf` multiplies both coordinates by
`SCALE`, each product rounded. -/
def b2ToSf (v : b2Vec2 F) : Vector2f F := ⟨fl32 (v.x * SCALE), fl32 (v.y * SCALE)⟩

/-- Source lines 17-19 in binary32: `sfToB2` divides both coordinates by
`SCALE`, each quotient rounded. -/
def sfToB2 (v : Vector2f F) : b2Vec2 F := ⟨fl32 (v.x / SCALE), fl32 (v.y / SCALE)⟩

/-- Source line 200 in binary32:
`b2Vec2(std::cos(angle) * power, std::sin(angle) * power)`, each product
rounded; `m` gives the `float` versions of `std::cos` and `std::sin`. -/
def launchVelocity (m : CMath F) (angle power : F) : b2Vec2 F :=
  ⟨fl32 (m.cos angle * power), fl32 (m.sin angle * power)⟩

end Binary32

end Rounding

/-! ## Auxiliary definitions for the proofs -/

section Auxiliary

variable {F : Type} [LinearOrderedField F]

/-- The body `createRagdoll` builds for one part: dynamic, at `pos`, moving
with `v`, carrying one fixture of density 1 with shape `s`. -/
def ragdollPart (pos v : b2Vec2 F) (s : b2Shape F) : b2Body F :=
  ⟨.b2_dynamicBody, pos, v, [⟨s, 1, 0.2, 0⟩], b2Fixture.ComputeMass ⟨s, 1, 0.2, 0⟩⟩

/-- What the activation loop body does to the body it is run on. -/
def promoteBody (massOnSetType : Bool) (body : b2Body F) : b2Body F :=
  let b1 : b2Body F := { body with type := .b2_dynamicBody }
  let b2 : b2Body F :=
    if massOnSetType then { b1 with mass := (b1.fixtures.map b2Fixture.ComputeMass).sum } else b1
  if b2.mass = 0 then { b2 with mass := (b2.fixtures.map b2Fixture.ComputeMass).sum } else b2

/-- The fixture `createBox` gives the obstacle box (3 x 3, density 1). -/
def boxFixture : b2Fixture F := ⟨.e_polygon (3 / 2) (3 / 2), 1, 0.5, 0.1⟩

/-- The fixture of the obstacle circle (radius 1.5, density 1). -/
def circleFixture : b2Fixture F := ⟨.e_circle 1.5, 1, 0.5, 0.1⟩

/-- Body `h` exists, carries exactly the fixture `fx`, and its mass is zero
or the mass computed from `fx`. -/
def BodyOK (w : b2World F) (h : Nat) (fx : b2Fixture F) : Prop :=
  ∃ body, w.bodies[h]? = some body ∧ body.fixtures = [fx] ∧
    (body.mass = 0 ∨ body.mass = fx.ComputeMass)

/-- Whether a shape is a circle (`e_circle`) rather than a polygon. -/
def b2Shape.isCircle : b2Shape F → Bool
  | .e_circle _ => true
  | .e_polygon _ _ => false

/-- For each fixture of body `b`, whether its shape is a circle. -/
def b2World.circleFlags (w : b2World F) (b : Nat) : Option (List Bool) :=
  w.bodies[b]?.map fun body => body.fixtures.map fun f => f.shape.isCircle

/-- The six parts of `rag` exist in `w`, each with one fixture: a polygon for
the torso, a circle for the head, polygons for the arms and legs. -/
def RagdollOK (w : b2World F) (rag : Ragdoll) : Prop :=
  rag.parts.map w.circleFlags =
    [some [false], some [true], some [false], some [false], some [false], some [false]]

/-- The invariant of the frame loop the activation and render results rest
on. -/
def SceneInv (s : MainState F) : Prop :=
  s.contactListener.boxBody = 4 ∧ s.contactListener.circleBody = 6 ∧
  (∀ x, x ∈ s.contactListener.toActivate → x = 4 ∨ x = 6) ∧
  BodyOK s.world 4 boxFixture ∧ BodyOK s.world 6 circleFixture ∧
  ∀ rag ∈ s.ragdolls, RagdollOK s.world rag

/-- The real-valued `<cmath>`: `atan2(y, x)` is the argument of `x + y i`. -/
noncomputable def CMath.real : CMath ℝ :=
  ⟨fun y x => Complex.arg ⟨x, y⟩, Real.cos, Real.sin⟩

/-- The `<cmath>` of `float`: each call returns the binary32 value nearest to
the real result.  The C library is outside the repository; its functions are
taken as correctly rounded, and `atan2(y, x)` is the argument of `x + y i`. -/
noncomputable def CMath.binary32 : CMath ℝ :=
  ⟨fun y x => fl32 (Complex.arg ⟨x, y⟩), fun a => fl32 (Real.cos a), fun a => fl32 (Real.sin a)⟩

/-- A rational stand-in for `<cmath>` that always aims along the x axis; it
only serves to run the program on concrete inputs. -/
def CMath.axis : CMath ℚ := ⟨fun _ _ => 0, fun _ => 1, fun _ => 0⟩

/-- A sample frame: a press at time 0, a release at time 1 with the mouse at
pixel (60, 540), and during the step the torso (body 7) hits the obstacle
box (body 4) and the head (body 8) hits the obstacle circle (body 6). -/
def sampleFrame : FrameInput ℚ :=
  ⟨[(.MouseButtonPressed .Left, 0, (60, 540)), (.MouseButtonReleased .Left, 1, (60, 540))],
    [⟨4, 7⟩, ⟨8, 6⟩]⟩

/-- The state after the events of `sampleFrame`: the initial scene with one
ragdoll launched (bodies 7 to 12). -/
def launchedState : MainState ℚ := pollEvents CMath.axis (setup 0) sampleFrame.events

end Auxiliary

/-! ## Lemmas -/

section Lemmas

variable {F : Type} [LinearOrderedField F]

theorem modify_length_append {α : Type} (f : α → α) (l : List α) (a : α) (r : List α) :
    (l ++ a :: r).modify f l.length = l ++ f a :: r := by
  induction l with
  | nil => rfl
  | cons b l ih => simpa using ih

theorem getElem?_length_append {α : Type} (l : List α) (a : α) (r : List α) :
    (l ++ a :: r)[l.length]? = some a := by
  induction l with
  | nil => simp
  | cons b l ih => simpa using ih

theorem modify_length_add_append {α : Type} (f : α → α) (l r : List α) (k : Nat) :
    (l ++ r).modify f (l.length + k) = l ++ r.modify f k := by
  induction l with
  | nil => simp
  | cons b l ih => simpa [Nat.succ_add] using ih

theorem getElem?_length_add_append {α : Type} (l r : List α) (k : Nat) :
    (l ++ r)[l.length + k]? = r[k]? := by
  induction l with
  | nil => simp
  | cons b l ih => simpa [Nat.succ_add] using ih

theorem getElem?_length_add_append_cons {α : Type} (l : List α) (a : α) (r : List α)
    (k : Nat) : (l ++ a :: r)[l.length + (k + 1)]? = r[k]? := by
  rw [getElem?_length_add_append]; simp

theorem b2Vec2.add_def {G : Type} [Add G] (a b : b2Vec2 G) :
    a + b = ⟨a.x + b.x, a.y + b.y⟩ := rfl

theorem getElem_length_append {α : Type} (l : List α) (a : α) (r : List α)
    (h : l.length < (l ++ a :: r).length) : (l ++ a :: r)[l.length] = a := by
  have h1 := getElem?_length_append l a r
  rw [List.getElem?_eq_getElem h] at h1
  exact Option.some.inj h1

/-- Closed form of `createRagdoll`: six bodies and five joints are appended
to the world, nothing else changes. -/
theorem createRagdoll_eq (w : b2World F) (P V : b2Vec2 F) :
    createRagdoll w P V =
      (⟨[w.bodies.length, w.bodies.length + 1, w.bodies.length + 2, w.bodies.length + 3,
          w.bodies.length + 4, w.bodies.length + 5],
        [w.joints.length, w.joints.length + 1, w.joints.length + 2, w.joints.length + 3,
          w.joints.length + 4]⟩,
       { w with
         bodies := w.bodies ++
           [ragdollPart P V (.e_polygon ((0.6 : F) / 2) ((1.2 : F) / 2)),
            ragdollPart (P + ⟨0, -(1.2 : F) / 2 - 0.35⟩) V (.e_circle 0.35),
            ragdollPart (P + ⟨((-1 : Int) : F) * ((0.6 : F) / 2 + (0.3 : F) / 2), -(1.2 : F) / 4⟩) V
              (.e_polygon ((0.3 : F) / 2) ((0.6 : F) / 2)),
            ragdollPart (P + ⟨((1 : Int) : F) * ((0.6 : F) / 2 + (0.3 : F) / 2), -(1.2 : F) / 4⟩) V
              (.e_polygon ((0.3 : F) / 2) ((0.6 : F) / 2)),
            ragdollPart (P + ⟨((-1 : Int) : F) * (0.6 : F) / 4, (1.2 : F) / 2 + (0.6 : F) / 2⟩) V
              (.e_polygon ((0.3 : F) / 2) ((0.6 : F) / 2)),
            ragdollPart (P + ⟨((1 : Int) : F) * (0.6 : F) / 4, (1.2 : F) / 2 + (0.6 : F) / 2⟩) V
              (.e_polygon ((0.3 : F) / 2) ((0.6 : F) / 2))],
         joints := w.joints ++
           [⟨w.bodies.length, w.bodies.length + 1, P + ⟨0, -(1.2 : F) / 2⟩⟩,
            ⟨w.bodies.length, w.bodies.length + 2,
              P + ⟨((-1 : Int) : F) * (0.6 : F) / 2, -(1.2 : F) / 4⟩⟩,
            ⟨w.bodies.length, w.bodies.length + 3,
              P + ⟨((1 : Int) : F) * (0.6 : F) / 2, -(1.2 : F) / 4⟩⟩,
            ⟨w.bodies.length, w.bodies.length + 4,
              P + ⟨((-1 : Int) : F) * (0.6 : F) / 4, (1.2 : F) / 2⟩⟩,
            ⟨w.bodies.length, w.bodies.length + 5,
              P + ⟨((1 : Int) : F) * (0.6 : F) / 4, (1.2 : F) / 2⟩⟩] }) := by
  simp [createRagdoll, createRagdoll.arm, createRagdoll.leg, b2World.CreateBody,
    b2World.CreateFixtureShape, b2World.CreateFixture, b2World.SetLinearVelocity,
    b2World.ResetMassData, b2World.modifyBody, b2World.GetWorldCenter, b2World.CreateJoint,
    ragdollPart, modify_length_append, modify_length_add_append, getElem?_length_append,
    getElem?_length_add_append, getElem_length_append]

end Lemmas

section DrainLemmas
variable {F : Type} [LinearOrderedField F]

theorem modify_congr_at {α : Type} (l : List α) (b : Nat) (f g : α → α)
    (h : ∀ a, l[b]? = some a → f a = g a) : l.modify f b = l.modify g b := by
  apply List.ext_getElem?
  intro n
  rw [List.getElem?_modify, List.getElem?_modify]
  rcases hn : l[n]? with _ | a
  · rfl
  · by_cases hb : b = n
    · subst hb; simp [h a hn]
    · simp [hb]

theorem promote_eq (flag : Bool) (w : b2World F) (b : Nat) :
    promote flag w b =
      { w with
        bodies := w.bodies.modify (promoteBody flag) b
        setTypeCalls := w.setTypeCalls ++ [(b, .b2_dynamicBody)] } := by
  cases flag <;> rcases h : w.bodies[b]? with _ | body <;>
    simp [promote, b2World.SetType, b2World.ResetMassData, b2World.modifyBody, b2World.GetMass,
      List.modify_modify_eq, h]
  · apply modify_congr_at; intro a ha; rw [h] at ha; cases ha
  · split_ifs with h0 <;> simp <;> apply modify_congr_at <;>
      (intro a ha; rw [h] at ha; cases ha; simp [promoteBody, h0])
  · apply modify_congr_at; intro a ha; rw [h] at ha; cases ha
  · split_ifs with h0 <;> simp <;> apply modify_congr_at <;>
      (intro a ha; rw [h] at ha; cases ha; simp [promoteBody, h0])

theorem promoteBody_type (flag : Bool) (body : b2Body F) :
    (promoteBody flag body).type = .b2_dynamicBody := by
  unfold promoteBody
  cases flag <;> simp
  split_ifs <;> rfl

theorem promoteBody_fixtures (flag : Bool) (body : b2Body F) :
    (promoteBody flag body).fixtures = body.fixtures := by
  unfold promoteBody
  cases flag <;> simp
  split_ifs <;> rfl

theorem foldl_promote_setTypeCalls (flag : Bool) (bs : List Nat) (w : b2World F) :
    (bs.foldl (promote flag) w).setTypeCalls =
      w.setTypeCalls ++ bs.map (fun b => (b, b2BodyType.b2_dynamicBody)) := by
  induction bs generalizing w with
  | nil => simp
  | cons b bs ih => simp [List.foldl, ih, promote_eq]

theorem count_setTypeCalls (t : Nat) (l : List Nat) :
    List.count (t, b2BodyType.b2_dynamicBody)
      (l.map (fun b => (b, b2BodyType.b2_dynamicBody))) = l.count t := by
  induction l with
  | nil => rfl
  | cons a l ih =>
    simp only [List.map, List.count_cons, ih]
    congr 1
    by_cases h : a = t
    · subst h; simp
    · simp [h]

theorem foldl_promote_getElem? (flag : Bool) (bs : List Nat) (w : b2World F) (x : Nat) :
    (bs.foldl (promote flag) w).bodies[x]? =
      w.bodies[x]?.map ((promoteBody flag)^[bs.count x]) := by
  induction bs generalizing w with
  | nil => simp
  | cons b bs ih =>
    rw [List.foldl, ih, promote_eq]
    simp only [List.getElem?_modify]
    rcases hx : w.bodies[x]? with _ | body
    · simp
    · by_cases hb : b = x
      · subst hb; simp [Function.iterate_succ_apply]
      · simp [hb, List.count_cons_of_ne (Ne.symm hb)]

theorem StdSet.mem_insert (s : StdSet) (x y : Nat) : y ∈ s.insert x ↔ y = x ∨ y ∈ s :=
  mem_setInsert x y s.elems

theorem StdSet.count_eq_one (s : StdSet) (x : Nat) (hx : x ∈ s) : s.elems.count x = 1 :=
  List.count_eq_one_of_mem s.sorted.nodup hx

end DrainLemmas

section Step

/-- A notification that qualifies for `t` inserts `t`. -/
theorem BeginContact_qualifying {F : Type} (l : MyContactListener) (w : b2World F) (t : Nat)
    (c : b2Contact) (hq : Qualifies l w t c) :
    l.BeginContact w c = { l with toActivate := l.toActivate.insert t } := by
  simp only [MyContactListener.BeginContact]
  rcases hq with ⟨rfl, h1, h2, h3⟩ | ⟨rfl, h1, h2, h3⟩
  · simp [h1, h2, h3]
  · simp [h1, h2, h3]

/-- Whatever the notification, `BeginContact` keeps the two trigger handles,
drops nothing from `toActivate`, and adds at most a body the notification
qualifies for. -/
theorem BeginContact_step {F : Type} (l : MyContactListener) (w : b2World F) (c : b2Contact) :
    (l.BeginContact w c).boxBody = l.boxBody ∧
    (l.BeginContact w c).circleBody = l.circleBody ∧
    (∀ x, x ∈ l.toActivate → x ∈ (l.BeginContact w c).toActivate) ∧
    (∀ x, x ∈ (l.BeginContact w c).toActivate → x ∈ l.toActivate ∨ Qualifies l w x c) := by
  simp only [MyContactListener.BeginContact, Qualifies, ActivationRule]
  split_ifs with c1 c2 c3 c4
  · refine ⟨rfl, rfl, fun x hx => (StdSet.mem_insert _ _ _).mpr (Or.inr hx), fun x hx => ?_⟩
    rcases (StdSet.mem_insert _ _ _).mp hx with rfl | hx
    · exact Or.inr (Or.inl ⟨rfl, c1.1, c2, c1.2⟩)
    · exact Or.inl hx
  · exact ⟨rfl, rfl, fun x hx => hx, fun x hx => Or.inl hx⟩
  · refine ⟨rfl, rfl, fun x hx => (StdSet.mem_insert _ _ _).mpr (Or.inr hx), fun x hx => ?_⟩
    rcases (StdSet.mem_insert _ _ _).mp hx with rfl | hx
    · exact Or.inr (Or.inr ⟨rfl, c3.1, c4, c3.2⟩)
    · exact Or.inl hx
  · exact ⟨rfl, rfl, fun x hx => hx, fun x hx => Or.inl hx⟩
  · exact ⟨rfl, rfl, fun x hx => hx, fun x hx => Or.inl hx⟩

theorem Qualifies_congr {F : Type} (l l2 : MyContactListener) (w : b2World F) (t : Nat)
    (c : b2Contact) (h1 : l2.boxBody = l.boxBody) (h2 : l2.circleBody = l.circleBody) :
    Qualifies l2 w t c ↔ Qualifies l w t c := by
  simp [Qualifies, ActivationRule, h1, h2]

/-- The step over any list of notifications: `toActivate` afterwards holds
exactly the bodies it held before and the bodies some notification of the
step qualifies for. -/
theorem worldStep_mem {F : Type} (w : b2World F) (cs : List b2Contact)
    (l : MyContactListener) :
    (worldStep w l cs).boxBody = l.boxBody ∧
    (worldStep w l cs).circleBody = l.circleBody ∧
    ∀ x, x ∈ (worldStep w l cs).toActivate ↔
      x ∈ l.toActivate ∨ ∃ c ∈ cs, Qualifies l w x c := by
  induction cs generalizing l with
  | nil => exact ⟨rfl, rfl, fun x => by simp [worldStep]⟩
  | cons c cs ih =>
    obtain ⟨b1, b2, b3, b4⟩ := BeginContact_step l w c
    obtain ⟨i1, i2, i3⟩ := ih (l.BeginContact w c)
    have hfold : worldStep w l (c :: cs) = worldStep w (l.BeginContact w c) cs := rfl
    rw [hfold]
    refine ⟨i1.trans b1, i2.trans b2, fun x => ?_⟩
    rw [i3 x]
    constructor
    · rintro (hx | ⟨d, hd, hq⟩)
      · rcases b4 x hx with hx | hq
        · exact Or.inl hx
        · exact Or.inr ⟨c, List.mem_cons_self c cs, hq⟩
      · exact Or.inr ⟨d, List.mem_cons_of_mem c hd,
          (Qualifies_congr l _ w x d b1 b2).mp hq⟩
    · rintro (hx | ⟨d, hd, hq⟩)
      · exact Or.inl (b3 x hx)
      · rcases List.mem_cons.mp hd with rfl | hd
        · left
          rw [BeginContact_qualifying l w x d hq]
          exact (StdSet.mem_insert _ _ _).mpr (Or.inl rfl)
        · exact Or.inr ⟨d, hd, (Qualifies_congr l _ w x d b1 b2).mpr hq⟩

end Step

section Invariant
variable {F : Type} [LinearOrderedField F]

theorem boxFixture_mass : (boxFixture : b2Fixture F).ComputeMass = 3 * 3 := by
  simp [boxFixture, b2Fixture.ComputeMass]; norm_num

theorem circleFixture_mass :
    (circleFixture : b2Fixture F).ComputeMass = b2_pi * 1.5 * 1.5 := by
  simp [circleFixture, b2Fixture.ComputeMass]

theorem b2_pi_pos : (0 : F) < b2_pi := by unfold b2_pi; norm_num

theorem setup_world (t0 : F) :
    (setup t0).contactListener = ⟨4, 6, StdSet.empty⟩ ∧
    (setup t0).boxBody = 4 ∧ (setup t0).circleBody = 6 ∧
    (setup t0).ragdolls = [] ∧
    (setup t0).world.bodies[4]? =
      some ⟨.b2_staticBody, ⟨13, 11⟩, ⟨0, 0⟩, [boxFixture], 0⟩ ∧
    (setup t0).world.bodies[6]? =
      some ⟨.b2_staticBody, ⟨6, 5⟩, ⟨0, 0⟩, [circleFixture], 0⟩ := by
  simp [setup, createBox, b2World.CreateBody, b2World.CreateFixture, b2World.ResetMassData,
    b2World.modifyBody, b2World.empty, boxFixture, circleFixture]

theorem setup_inv (t0 : F) : SceneInv (setup t0) := by
  obtain ⟨h1, _, _, hr, h4, h6⟩ := setup_world t0
  refine ⟨by rw [h1], by rw [h1], ?_, ⟨_, h4, rfl, Or.inl rfl⟩, ⟨_, h6, rfl, Or.inl rfl⟩, ?_⟩
  · intro x hx
    rw [h1] at hx
    exact absurd hx (List.not_mem_nil x)
  · intro rag hrag
    rw [hr] at hrag
    exact absurd hrag (List.not_mem_nil rag)

theorem createRagdoll_getElem? (w : b2World F) (P V : b2Vec2 F) (h : Nat)
    (hh : h < w.bodies.length) :
    (createRagdoll w P V).2.bodies[h]? = w.bodies[h]? := by
  rw [createRagdoll_eq]
  exact List.getElem?_append_left hh

theorem BodyOK_createRagdoll (w : b2World F) (P V : b2Vec2 F) (h : Nat) (fx : b2Fixture F)
    (hok : BodyOK w h fx) : BodyOK (createRagdoll w P V).2 h fx := by
  obtain ⟨body, hb, hrest⟩ := hok
  have hlt : h < w.bodies.length := by
    by_contra hge
    rw [List.getElem?_eq_none (not_lt.mp hge)] at hb
    exact Option.noConfusion hb
  exact ⟨body, by rw [createRagdoll_getElem? w P V h hlt]; exact hb, hrest⟩

/-- A world that agrees with `w` on the shapes of every body of `w` keeps
every ragdoll of `w` intact. -/
theorem RagdollOK_of_agree {G : Type} (w w2 : b2World G) (rag : Ragdoll)
    (hagree : ∀ p, w.circleFlags p ≠ none → w2.circleFlags p = w.circleFlags p)
    (hok : RagdollOK w rag) : RagdollOK w2 rag := by
  unfold RagdollOK at hok ⊢
  rw [← hok]
  apply List.map_congr_left
  intro p hp
  apply hagree
  intro hnone
  have hmem : w.circleFlags p ∈ rag.parts.map w.circleFlags := List.mem_map_of_mem _ hp
  rw [hok, hnone] at hmem
  simp at hmem

theorem circleFlags_createRagdoll (w : b2World F) (P V : b2Vec2 F) (p : Nat)
    (hp : w.circleFlags p ≠ none) :
    (createRagdoll w P V).2.circleFlags p = w.circleFlags p := by
  have hlt : p < w.bodies.length := by
    by_contra hge
    apply hp
    simp [b2World.circleFlags, List.getElem?_eq_none (not_lt.mp hge)]
  simp only [b2World.circleFlags, createRagdoll_getElem? w P V p hlt]

theorem RagdollOK_createRagdoll_new (w : b2World F) (P V : b2Vec2 F) :
    RagdollOK (createRagdoll w P V).2 (createRagdoll w P V).1 := by
  rw [createRagdoll_eq]
  simp only [RagdollOK, b2World.circleFlags, List.map, getElem?_length_append,
    getElem?_length_add_append_cons, List.getElem?_cons_succ, List.getElem?_cons_zero,
    Option.map_some', ragdollPart, b2Shape.isCircle]

theorem handleEvent_inv (m : CMath F) (now : F) (mouse : Int × Int) (s : MainState F)
    (e : Event) (hs : SceneInv s) : SceneInv (handleEvent m now mouse s e) := by
  obtain ⟨h1, h2, h3, h4, h5, h6⟩ := hs
  unfold handleEvent
  split
  · exact ⟨h1, h2, h3, h4, h5, h6⟩
  · exact ⟨h1, h2, h3, h4, h5, h6⟩
  · refine ⟨h1, h2, h3, BodyOK_createRagdoll _ _ _ _ _ h4, BodyOK_createRagdoll _ _ _ _ _ h5,
      ?_⟩
    intro rag hrag
    simp only [onRelease] at hrag
    rcases List.mem_append.mp hrag with hold | hnew
    · exact RagdollOK_of_agree _ _ rag (circleFlags_createRagdoll _ _ _) (h6 rag hold)
    · rw [List.mem_singleton.mp hnew]
      exact RagdollOK_createRagdoll_new _ _ _
  · exact ⟨h1, h2, h3, h4, h5, h6⟩

theorem pollEvents_inv (m : CMath F) (events : List (Event × F × (Int × Int)))
    (s : MainState F) (hs : SceneInv s) : SceneInv (pollEvents m s events) := by
  unfold pollEvents
  induction events generalizing s with
  | nil => exact hs
  | cons e es ih => exact ih _ (handleEvent_inv m _ _ s _ hs)

theorem promoteBody_ok (flag : Bool) (fx : b2Fixture F)
    (body : b2Body F) (hf : body.fixtures = [fx])
    (hm : body.mass = 0 ∨ body.mass = fx.ComputeMass) :
    (promoteBody flag body).fixtures = [fx] ∧ (promoteBody flag body).mass = fx.ComputeMass := by
  refine ⟨by rw [promoteBody_fixtures, hf], ?_⟩
  unfold promoteBody
  cases flag <;> simp [hf]
  split_ifs with h0
  · rfl
  · rcases hm with hm | hm
    · exact absurd hm h0
    · exact hm

theorem iterate_promoteBody_ok (flag : Bool) (fx : b2Fixture F)
    (k : Nat) (body : b2Body F) (hf : body.fixtures = [fx])
    (hm : body.mass = 0 ∨ body.mass = fx.ComputeMass) :
    ((promoteBody flag)^[k] body).fixtures = [fx] ∧
    (((promoteBody flag)^[k] body).mass = 0 ∨
      ((promoteBody flag)^[k] body).mass = fx.ComputeMass) ∧
    (0 < k → ((promoteBody flag)^[k] body).mass = fx.ComputeMass) := by
  induction k generalizing body with
  | zero => exact ⟨hf, hm, fun h => absurd h (lt_irrefl 0)⟩
  | succ n ih =>
    rw [Function.iterate_succ_apply]
    have hp := promoteBody_ok flag fx body hf hm
    have h := ih (promoteBody flag body) hp.1 (Or.inr hp.2)
    refine ⟨h.1, h.2.1, fun _ => ?_⟩
    rcases Nat.eq_zero_or_pos n with rfl | hn
    · simpa using hp.2
    · exact h.2.2 hn

theorem iterate_promoteBody_fixtures (flag : Bool) (k : Nat) (body : b2Body F) :
    ((promoteBody flag)^[k] body).fixtures = body.fixtures := by
  induction k generalizing body with
  | zero => rfl
  | succ n ih => rw [Function.iterate_succ_apply, ih, promoteBody_fixtures]

theorem BodyOK_drain (flag : Bool) (w : b2World F) (l : MyContactListener) (h : Nat)
    (fx : b2Fixture F) (hok : BodyOK w h fx) :
    BodyOK (activationDrain flag w l).1 h fx ∧
    (h ∈ l.toActivate → (activationDrain flag w l).1.GetMass h = some fx.ComputeMass) := by
  obtain ⟨body, hb, hf, hm⟩ := hok
  have hit := iterate_promoteBody_ok flag fx (l.toActivate.elems.count h) body hf hm
  have hget : (activationDrain flag w l).1.bodies[h]? =
      some ((promoteBody flag)^[l.toActivate.elems.count h] body) := by
    simp [activationDrain, foldl_promote_getElem?, hb]
  refine ⟨⟨_, hget, hit.1, hit.2.1⟩, fun hmem => ?_⟩
  have hpos : 0 < l.toActivate.elems.count h := List.count_pos_iff.mpr hmem
  simp [b2World.GetMass, hget, hit.2.2 hpos]

theorem circleFlags_drain (flag : Bool) (w : b2World F) (l : MyContactListener) (p : Nat) :
    (activationDrain flag w l).1.circleFlags p = w.circleFlags p := by
  simp only [b2World.circleFlags, activationDrain, foldl_promote_getElem?]
  rcases w.bodies[p]? with _ | body
  · rfl
  · simp [iterate_promoteBody_fixtures]

theorem BeginContact_inv {G : Type} (w : b2World G) (l : MyContactListener) (c : b2Contact)
    (a b : Nat) (h1 : l.boxBody = a) (h2 : l.circleBody = b)
    (h3 : ∀ x, x ∈ l.toActivate → x = a ∨ x = b) :
    (l.BeginContact w c).boxBody = a ∧ (l.BeginContact w c).circleBody = b ∧
    ∀ x, x ∈ (l.BeginContact w c).toActivate → x = a ∨ x = b := by
  simp only [MyContactListener.BeginContact]
  split_ifs with c1 c2 c3 c4
  · refine ⟨h1, h2, fun x hx => ?_⟩
    rcases (StdSet.mem_insert _ _ _).mp hx with rfl | hx
    · rw [← h1, ← h2]; exact c1.1
    · exact h3 x hx
  · exact ⟨h1, h2, h3⟩
  · refine ⟨h1, h2, fun x hx => ?_⟩
    rcases (StdSet.mem_insert _ _ _).mp hx with rfl | hx
    · rw [← h1, ← h2]; exact c3.1
    · exact h3 x hx
  · exact ⟨h1, h2, h3⟩
  · exact ⟨h1, h2, h3⟩

theorem worldStep_inv {G : Type} (w : b2World G) (cs : List b2Contact) (l : MyContactListener)
    (a b : Nat) (h1 : l.boxBody = a) (h2 : l.circleBody = b)
    (h3 : ∀ x, x ∈ l.toActivate → x = a ∨ x = b) :
    (worldStep w l cs).boxBody = a ∧ (worldStep w l cs).circleBody = b ∧
    ∀ x, x ∈ (worldStep w l cs).toActivate → x = a ∨ x = b := by
  unfold worldStep
  induction cs generalizing l with
  | nil => exact ⟨h1, h2, h3⟩
  | cons c cs ih =>
    obtain ⟨k1, k2, k3⟩ := BeginContact_inv w l c a b h1 h2 h3
    exact ih _ k1 k2 k3

theorem frame_inv (m : CMath F) (flag : Bool) (s : MainState F) (i : FrameInput F)
    (hs : SceneInv s) : SceneInv (frame m flag s i) := by
  obtain ⟨h1, h2, _, h4, h5, h6⟩ := pollEvents_inv m i.events s hs
  have hw := worldStep_inv
    (activationDrain flag (pollEvents m s i.events).world
      (pollEvents m s i.events).contactListener).1 i.contacts
    (activationDrain flag (pollEvents m s i.events).world
      (pollEvents m s i.events).contactListener).2 4 6 h1 h2
    (fun x hx => absurd hx (List.not_mem_nil x))
  exact ⟨hw.1, hw.2.1, hw.2.2,
    (BodyOK_drain flag _ _ 4 boxFixture h4).1,
    (BodyOK_drain flag _ _ 6 circleFixture h5).1,
    fun rag hrag => RagdollOK_of_agree _ _ rag
      (fun p _ => circleFlags_drain flag _ _ p) (h6 rag hrag)⟩

theorem mainLoop_inv (m : CMath F) (flag : Bool) (inputs : List (FrameInput F))
    (s : MainState F) (hs : SceneInv s) : SceneInv (mainLoop m flag s inputs) := by
  induction inputs generalizing s with
  | nil => exact hs
  | cons i is ih =>
    unfold mainLoop
    split_ifs
    · exact ih _ (frame_inv m flag s i hs)
    · exact hs

/-- The draw calls of an intact ragdoll: cyan polygons for torso, arms and
legs, a magenta circle for the head. -/
theorem renderRagdolls_of_ok {G : Type} (w : b2World G) (rag : Ragdoll)
    (hok : RagdollOK w rag) :
    ∃ torso head armL armR legL legR : Nat,
      rag.parts = [torso, head, armL, armR, legL, legR] ∧
      renderRagdolls w [rag] =
        [⟨torso, .ConvexShape, .Cyan⟩, ⟨head, .CircleShape, .Magenta⟩,
          ⟨armL, .ConvexShape, .Cyan⟩, ⟨armR, .ConvexShape, .Cyan⟩,
          ⟨legL, .ConvexShape, .Cyan⟩, ⟨legR, .ConvexShape, .Cyan⟩] := by
  have draw : ∀ (p : Nat) (c : Bool), w.circleFlags p = some [c] →
      (w.GetFixtureList p).map (drawRagdollFixture p) =
        [if c then ⟨p, .CircleShape, .Magenta⟩ else ⟨p, .ConvexShape, .Cyan⟩] := by
    intro p c hc
    unfold b2World.circleFlags at hc
    unfold b2World.GetFixtureList
    rcases hb : w.bodies[p]? with _ | body
    · rw [hb] at hc; simp at hc
    · rw [hb] at hc
      simp only [Option.map_some', Option.some.injEq] at hc
      rcases hfx : body.fixtures with _ | ⟨f, _ | ⟨g, r⟩⟩
      · rw [hfx] at hc; simp at hc
      · rw [hfx] at hc
        simp only [List.map, List.cons.injEq, and_true] at hc
        subst hc
        rcases hs : f.shape with r | ⟨hx, hy⟩ <;>
          simp [drawRagdollFixture, hs, hfx, b2Shape.isCircle]
      · rw [hfx] at hc; simp at hc
  unfold RagdollOK at hok
  rcases hp : rag.parts with _ | ⟨p0, _ | ⟨p1, _ | ⟨p2, _ | ⟨p3, _ | ⟨p4, _ | ⟨p5, _ | ⟨p6, r⟩⟩⟩⟩⟩⟩⟩ <;>
    rw [hp] at hok <;> simp only [List.map, List.cons.injEq, and_true, reduceCtorEq,
      and_false, false_and] at hok
  obtain ⟨h0, h1, h2, h3, h4, h5⟩ := hok
  refine ⟨p0, p1, p2, p3, p4, p5, rfl, ?_⟩
  simp [renderRagdolls, hp, draw _ _ h0, draw _ _ h1, draw _ _ h2, draw _ _ h3, draw _ _ h4,
    draw _ _ h5]

end Invariant

section RealMath

theorem atan2_diag (k : ℝ) (hk : 0 < k) : CMath.real.atan2 (-k) k = -(Real.pi / 4) := by
  show Complex.arg ⟨k, -k⟩ = -(Real.pi / 4)
  have hr : 0 < k * Real.sqrt 2 := mul_pos hk (Real.sqrt_pos.mpr (by norm_num))
  have hθ : -(Real.pi / 4) ∈ Set.Ioc (-Real.pi) Real.pi := by
    constructor <;> linarith [Real.pi_pos]
  have h := Complex.arg_mul_cos_add_sin_mul_I hr hθ
  rw [← h]
  congr 1
  have h2 : Real.sqrt 2 * Real.sqrt 2 = 2 := Real.mul_self_sqrt (by norm_num)
  rw [← Complex.ofReal_cos, ← Complex.ofReal_sin, Real.cos_neg, Real.sin_neg,
    Real.cos_pi_div_four, Real.sin_pi_div_four]
  apply Complex.ext
  · simp
    nlinarith [h2]
  · simp
    nlinarith [h2]

end RealMath

/-! ## Binary32 rounding -/

section Binary32Lemmas

variable {F : Type} [LinearOrderedField F] [FloorRing F]

theorem log2_eq (x : F) (e : Int) (h0 : 0 < x) (h1 : (2 : F) ^ e ≤ x)
    (h2 : x < (2 : F) ^ (e + 1)) : Int.log 2 x = e := by
  have hb : 1 < (2 : Nat) := by norm_num
  apply le_antisymm
  · have := (Int.lt_zpow_iff_log_lt hb h0).mp (show x < ((2 : Nat) : F) ^ (e + 1) by simpa using h2)
    omega
  · exact (Int.zpow_le_iff_le_log hb h0).mp (show ((2 : Nat) : F) ^ e ≤ x by simpa using h1)

theorem log2_bounds (x : F) (h0 : 0 < x) :
    (2 : F) ^ Int.log 2 x ≤ x ∧ x < (2 : F) ^ (Int.log 2 x + 1) := by
  have hb : 1 < (2 : Nat) := by norm_num
  have h1 := Int.zpow_log_le_self hb h0
  have h2 := Int.lt_zpow_succ_log_self hb x
  simp only [Nat.cast_ofNat] at h1 h2
  exact ⟨h1, h2⟩

theorem roundEven_floor (q : F) : ⌊q⌋ ≤ roundEven q ∧ roundEven q ≤ ⌊q⌋ + 1 := by
  unfold roundEven
  simp only
  split_ifs <;> constructor <;> omega

theorem roundEven_sub_le (q : F) : |(roundEven q : F) - q| ≤ 1 / 2 := by
  have h1 : (⌊q⌋ : F) ≤ q := Int.floor_le q
  have h2 : q < ⌊q⌋ + 1 := Int.lt_floor_add_one q
  unfold roundEven
  simp only
  rw [abs_le]
  split_ifs with c1 c2 c3
  · constructor <;> linarith
  · push_cast; constructor <;> linarith
  · have c4 : q - ⌊q⌋ = 1 / 2 := le_antisymm (not_lt.mp c2) (not_lt.mp c1)
    constructor <;> linarith
  · have c4 : q - ⌊q⌋ = 1 / 2 := le_antisymm (not_lt.mp c2) (not_lt.mp c1)
    push_cast; constructor <;> linarith

theorem roundEven_eq_of_abs_lt (q : F) (n : Int) (h : |q - n| < 1 / 2) : roundEven q = n := by
  have h1 := roundEven_sub_le q
  rw [abs_lt] at h
  rw [abs_le] at h1
  have h3 : ((roundEven q - n : Int) : F) < 1 := by push_cast; linarith
  have h4 : (-1 : F) < ((roundEven q - n : Int) : F) := by push_cast; linarith
  have h5 : roundEven q - n < 1 := by exact_mod_cast h3
  have h6 : -1 < roundEven q - n := by exact_mod_cast h4
  omega

theorem roundEven_intCast (n : Int) : roundEven (n : F) = n :=
  roundEven_eq_of_abs_lt _ n (by simp)

theorem le_roundEven (q : F) (n : Int) (h : (n : F) ≤ q) : n ≤ roundEven q :=
  le_trans (Int.le_floor.mpr h) (roundEven_floor q).1

theorem roundEven_le (q : F) (n : Int) (h : q ≤ (n : F)) : roundEven q ≤ n := by
  rcases eq_or_lt_of_le h with h | h
  · rw [h, roundEven_intCast]
  · have : ⌊q⌋ < n := Int.floor_lt.mpr h
    have := (roundEven_floor q).2
    omega

theorem fl32_zero : fl32 (0 : F) = 0 := by simp [fl32]

theorem fl32_neg (x : F) : fl32 (-x) = -fl32 x := by
  unfold fl32
  by_cases h0 : x = 0
  · simp [h0]
  · have h0' : -x ≠ 0 := neg_ne_zero.mpr h0
    simp only [h0, h0', if_false, abs_neg]
    rcases lt_or_gt_of_ne h0 with h | h
    · have h1 : 0 < -x := neg_pos.mpr h
      have h2 : ¬ 0 < x := not_lt.mpr (le_of_lt h)
      simp [h1, h2]
    · have h1 : ¬ 0 < -x := by simp; exact le_of_lt h
      simp [h1, h]

theorem fl32_pos_eq (x : F) (e : Int) (h0 : 0 < x) (h1 : (2 : F) ^ e ≤ x)
    (h2 : x < (2 : F) ^ (e + 1)) :
    fl32 x = (roundEven (x / 2 ^ (e - 23)) : F) * 2 ^ (e - 23) := by
  unfold fl32
  simp only [ne_of_gt h0, if_false, abs_of_pos h0, h0, if_true, one_mul,
    log2_eq x e h0 h1 h2]

theorem two_zpow_split {G : Type} [LinearOrderedField G] (e : Int) :
    (2 : G) ^ e = 8388608 * 2 ^ (e - 23) ∧ (2 : G) ^ (e + 1) = 16777216 * 2 ^ (e - 23) := by
  have h2 : (2 : G) ≠ 0 := by norm_num
  have a : (8388608 : G) = 2 ^ (23 : Int) := by norm_num
  have b : (16777216 : G) = 2 ^ (24 : Int) := by norm_num
  constructor
  · rw [a, ← zpow_add₀ h2]; congr 1; ring
  · rw [b, ← zpow_add₀ h2]; congr 1; ring

/-- Rounding on the grid of `2 ^ g`: a value between `2 ^ 23` and `2 ^ 24`
units rounds to the nearest whole number of units, ties to even. -/
theorem fl32_unit (x : F) (g : Int) (hlo : 8388608 * (2 : F) ^ g ≤ x)
    (hhi : x < 16777216 * (2 : F) ^ g) :
    fl32 x = (roundEven (x / 2 ^ g) : F) * 2 ^ g := by
  have hg : (0 : F) < 2 ^ g := zpow_pos (by norm_num) g
  have h0 : 0 < x := lt_of_lt_of_le (by positivity) hlo
  obtain ⟨s1, s2⟩ : (2 : F) ^ (g + 23) = 8388608 * 2 ^ (g + 23 - 23) ∧
      (2 : F) ^ (g + 23 + 1) = 16777216 * 2 ^ (g + 23 - 23) := two_zpow_split (g + 23)
  rw [show g + 23 - 23 = g by ring] at s1 s2
  have h := fl32_pos_eq x (g + 23) h0 (by rw [s1]; exact hlo) (by rw [s2]; exact hhi)
  rw [show g + 23 - 23 = g by ring] at h
  exact h

theorem fl32_of_unit (x : F) (g : Int) (n : Int) (hlo : 8388608 * (2 : F) ^ g ≤ x)
    (hhi : x < 16777216 * (2 : F) ^ g) (hn : |x / 2 ^ g - n| < 1 / 2) :
    fl32 x = n * 2 ^ g := by
  rw [fl32_unit x g hlo hhi, roundEven_eq_of_abs_lt _ n hn]

theorem fl32_mantissa (x : F) (h0 : 0 < x) :
    ∃ g : Int, 8388608 * (2 : F) ^ g ≤ x ∧ x < 16777216 * (2 : F) ^ g ∧
      fl32 x = (roundEven (x / 2 ^ g) : F) * 2 ^ g ∧
      8388608 ≤ roundEven (x / (2 : F) ^ g) ∧ roundEven (x / (2 : F) ^ g) ≤ 16777216 := by
  obtain ⟨b1, b2⟩ := log2_bounds x h0
  obtain ⟨s1, s2⟩ : (2 : F) ^ Int.log 2 x = 8388608 * 2 ^ (Int.log 2 x - 23) ∧
      (2 : F) ^ (Int.log 2 x + 1) = 16777216 * 2 ^ (Int.log 2 x - 23) :=
    two_zpow_split (Int.log 2 x)
  rw [s1] at b1
  rw [s2] at b2
  have hg : (0 : F) < 2 ^ (Int.log 2 x - 23) := zpow_pos (by norm_num) _
  refine ⟨Int.log 2 x - 23, b1, b2, fl32_unit x _ b1 b2, ?_, ?_⟩
  · apply le_roundEven
    rw [le_div_iff₀ hg]
    push_cast; exact b1
  · apply roundEven_le
    rw [div_le_iff₀ hg]
    push_cast; exact le_of_lt b2

set_option maxHeartbeats 1000000 in
/-- The round trip on a positive binary32 value with mantissa `M` and
exponent `k`: dividing by 30, multiplying by 30 and dividing by 30 again gives
the first quotient, and the product is within `2 ^ (-23)` of `x`, relatively. -/
theorem roundtrip_pos (x : F) (M k : Int) (hM1 : 8388608 ≤ M) (hM2 : M < 16777216)
    (hx : x = M * 2 ^ k) :
    |fl32 (fl32 (x / 30) * 30) - x| ≤ x / 8388608 ∧
    fl32 (fl32 (fl32 (x / 30) * 30) / 30) = fl32 (x / 30) := by
  have h2 : (2 : F) ≠ 0 := by norm_num
  have hMc1 : (8388608 : F) ≤ M := by exact_mod_cast hM1
  have hMc2 : (M : F) ≤ 16777215 := by
    have : M ≤ 16777215 := by omega
    exact_mod_cast this
  have hk : (0 : F) < 2 ^ k := zpow_pos (by norm_num) k
  have hx0 : 0 < x := by rw [hx]; exact mul_pos (by linarith) hk
  have ht0 : 0 < x / 30 := by positivity
  obtain ⟨g, hlo, hhi, hfl, hY1, hY2⟩ := fl32_mantissa (x / 30) ht0
  have hu : (0 : F) < 2 ^ g := zpow_pos (by norm_num) g
  have herr := roundEven_sub_le (x / 30 / 2 ^ g)
  have hYc1 : (8388608 : F) ≤ (roundEven (x / 30 / 2 ^ g) : F) := by exact_mod_cast hY1
  have hYc2 : (roundEven (x / 30 / 2 ^ g) : F) ≤ 16777216 := by exact_mod_cast hY2
  have hfl0 := hfl
  rw [hfl]
  generalize roundEven (x / 30 / (2 : F) ^ g) = Y at herr hYc1 hYc2 hY1 hY2 hfl0 ⊢
  -- the value of `x` in units of `2 ^ g`
  have hxu : x / 2 ^ g = M * 2 ^ (k - g) := by
    rw [hx, zpow_sub₀ h2]; field_simp
  have hq : x / 30 / 2 ^ g = x / 2 ^ g / 30 := by
    rw [div_div, div_div, mul_comm]
  have b_lo : 251658240 ≤ x / (2 : F) ^ g := by
    rw [le_div_iff₀ hu]; linarith
  have b_hi : x / (2 : F) ^ g < 503316480 := by
    rw [div_lt_iff₀ hu]; linarith
  have hd : k - g = 4 ∨ k - g = 5 := by
    have hp : (0 : F) < 2 ^ (k - g) := zpow_pos (by norm_num) _
    rw [hxu] at b_lo b_hi
    have d1 : 3 < k - g := by
      by_contra hc
      have h8 : (2 : F) ^ (k - g) ≤ 2 ^ (3 : Int) :=
        zpow_le_zpow_right₀ (by norm_num) (by omega)
      have e8 : (2 : F) ^ (3 : Int) = 8 := by norm_num
      rw [e8] at h8
      have := mul_le_mul hMc2 h8 (le_of_lt hp) (by norm_num)
      linarith
    have d2 : k - g < 6 := by
      by_contra hc
      have h64 : (2 : F) ^ (6 : Int) ≤ 2 ^ (k - g) :=
        zpow_le_zpow_right₀ (by norm_num) (by omega)
      have e64 : (2 : F) ^ (6 : Int) = 64 := by norm_num
      rw [e64] at h64
      have := mul_le_mul hMc1 h64 (by norm_num) (by linarith)
      linarith
    omega
  have herr2 : |(Y : F) * 30 - x / 2 ^ g| ≤ 15 := by
    rw [hq] at herr
    rw [abs_le] at herr ⊢
    constructor <;> linarith
  have e4 : (2 : F) ^ (g + 4) = 16 * 2 ^ g := by
    rw [zpow_add₀ h2]; norm_num; ring
  have e5 : (2 : F) ^ (g + 5) = 32 * 2 ^ g := by
    rw [zpow_add₀ h2]; norm_num; ring
  have hYu1 := mul_le_mul_of_nonneg_right hYc1 (le_of_lt hu)
  have hYu2 := mul_le_mul_of_nonneg_right hYc2 (le_of_lt hu)
  by_cases hN : 30 * Y < 268435456
  · -- the product rounds on the grid of 16 units
    have hNc : (Y : F) * 30 ≤ 268435455 := by
      have : Y * 30 ≤ 268435455 := by omega
      exact_mod_cast this
    have hNu := mul_le_mul_of_nonneg_right hNc (le_of_lt hu)
    have hz := fl32_unit ((Y : F) * 2 ^ g * 30) (g + 4)
      (by rw [e4]; linarith) (by rw [e4]; linarith)
    have hRq : (Y : F) * 2 ^ g * 30 / 2 ^ (g + 4) = (Y : F) * 30 / 16 := by
      rw [e4]; field_simp; ring
    rw [hRq] at hz
    have hRerr := roundEven_sub_le ((Y : F) * 30 / 16)
    have hR1 : 15728640 ≤ roundEven ((Y : F) * 30 / 16) := by
      apply le_roundEven
      push_cast
      rw [le_div_iff₀ (by norm_num)]
      linarith
    have hR2 : roundEven ((Y : F) * 30 / 16) ≤ 16777216 := by
      apply roundEven_le
      push_cast
      rw [div_le_iff₀ (by norm_num)]
      linarith
    have hRc1 : (15728640 : F) ≤ (roundEven ((Y : F) * 30 / 16) : F) := by
      exact_mod_cast hR1
    have hRc2 : (roundEven ((Y : F) * 30 / 16) : F) ≤ 16777216 := by exact_mod_cast hR2
    rw [hz]
    generalize roundEven ((Y : F) * 30 / 16) = R at hRerr hRc1 hRc2 ⊢
    rw [e4]
    have hRu1 := mul_le_mul_of_nonneg_right hRc1 (le_of_lt hu)
    have hRu2 := mul_le_mul_of_nonneg_right hRc2 (le_of_lt hu)
    have hRabs := hRerr
    rw [abs_le] at hRerr herr2
    constructor
    · have hXu : x = x / 2 ^ g * 2 ^ g := by field_simp
      have a1 : (R : F) * 16 - x / 2 ^ g ≤ 23 := by linarith
      have a2 : -23 ≤ (R : F) * 16 - x / 2 ^ g := by linarith
      have a3 := mul_le_mul_of_nonneg_right a1 (le_of_lt hu)
      have a4 := mul_le_mul_of_nonneg_right a2 (le_of_lt hu)
      have a5 := mul_le_mul_of_nonneg_right b_lo (le_of_lt hu)
      rw [← hXu] at a5
      rw [sub_mul, ← hXu] at a3 a4
      rw [abs_le]
      constructor <;> linarith
    · apply fl32_of_unit
      · rw [le_div_iff₀ (by norm_num)]; linarith
      · rw [div_lt_iff₀ (by norm_num)]; linarith
      · have : (R : F) * (16 * 2 ^ g) / 30 / 2 ^ g - Y = 16 / 30 * (R - Y * 30 / 16) := by
          field_simp; ring
        rw [this, abs_mul, abs_of_pos (by norm_num : (0 : F) < 16 / 30)]
        have : (16 / 30 : F) * |(R : F) - Y * 30 / 16| ≤ 16 / 30 * (1 / 2) :=
          mul_le_mul_of_nonneg_left hRabs (by norm_num)
        linarith
  · -- the product rounds back to `x` on the grid of 32 units
    have hNc : (268435456 : F) ≤ (Y : F) * 30 := by
      have : 268435456 ≤ Y * 30 := by omega
      exact_mod_cast this
    have hNu := mul_le_mul_of_nonneg_right hNc (le_of_lt hu)
    have hd5 : k - g = 5 := by
      rcases hd with h4 | h5
      · exfalso
        rw [hxu, h4] at herr2
        have h16 : (2 : F) ^ (4 : Int) = 16 := by norm_num
        rw [h16, abs_le] at herr2
        linarith [herr2.2]
      · exact h5
    rw [hxu, hd5] at herr2
    have h32 : (2 : F) ^ (5 : Int) = 32 := by norm_num
    rw [h32] at herr2
    have hz : fl32 ((Y : F) * 2 ^ g * 30) = M * 2 ^ (g + 5) := by
      apply fl32_of_unit
      · rw [e5]; linarith
      · rw [e5]; linarith
      · have : (Y : F) * 2 ^ g * 30 / 2 ^ (g + 5) - M = 1 / 32 * (Y * 30 - M * 32) := by
          rw [e5]; field_simp; ring
        rw [this, abs_mul, abs_of_pos (by norm_num : (0 : F) < 1 / 32)]
        have : (1 / 32 : F) * |(Y : F) * 30 - M * 32| ≤ 1 / 32 * 15 :=
          mul_le_mul_of_nonneg_left herr2 (by norm_num)
        linarith
    have hzx : (M : F) * 2 ^ (g + 5) = x := by
      have : x = M * 2 ^ (k - g) * 2 ^ g := by rw [← hxu]; field_simp
      rw [this, hd5, e5, h32]; ring
    rw [hz, hzx, hfl0, sub_self, abs_zero]
    exact ⟨by positivity, rfl⟩

/-- A nonzero binary32 value has a mantissa between `2 ^ 23` and `2 ^ 24`. -/
theorem IsFloat.normal {G : Type} [LinearOrderedField G] (x : G) (hx : IsFloat x)
    (h0 : 0 < x) :
    ∃ M k : Int, 8388608 ≤ M ∧ M < 16777216 ∧ x = M * 2 ^ k := by
  obtain ⟨M, k, hM, rfl⟩ := hx
  have hk : (0 : G) < 2 ^ k := zpow_pos (by norm_num) k
  have hMpos : 0 < M := by
    have : (0 : G) < (M : G) := (mul_pos_iff_of_pos_right hk).mp h0
    exact_mod_cast this
  have hM2 : M < 16777216 := by
    have := abs_lt.mp hM
    norm_num at this
    exact this.2
  obtain ⟨n, rfl⟩ : ∃ n : Nat, M = n := ⟨M.toNat, by omega⟩
  have hn0 : n ≠ 0 := by omega
  have hn2 : n < 2 ^ 24 := by norm_num; omega
  have hL1 : 2 ^ Nat.log 2 n ≤ n := Nat.pow_log_le_self 2 hn0
  have hL2 : n < 2 ^ (Nat.log 2 n + 1) := Nat.lt_pow_succ_log_self (by norm_num) n
  have hL : Nat.log 2 n < 24 := by
    have : 2 ^ Nat.log 2 n < 2 ^ 24 := lt_of_le_of_lt hL1 hn2
    exact (Nat.pow_lt_pow_iff_right (by norm_num)).mp this
  obtain ⟨j, hj⟩ : ∃ j : Nat, Nat.log 2 n + j = 23 := ⟨23 - Nat.log 2 n, by omega⟩
  have hp1 : 2 ^ 23 ≤ n * 2 ^ j := by
    rw [← hj, pow_add]
    exact Nat.mul_le_mul_right _ hL1
  have hp2 : n * 2 ^ j < 2 ^ 24 := by
    have : 2 ^ 24 = 2 ^ (Nat.log 2 n + 1) * 2 ^ j := by
      rw [← pow_add]; congr 1; omega
    rw [this]
    exact Nat.mul_lt_mul_of_pos_right hL2 (by positivity)
  refine ⟨(n * 2 ^ j : Nat), k - j, ?_, ?_, ?_⟩
  · have : (8388608 : Nat) ≤ n * 2 ^ j := by norm_num at hp1; exact hp1
    exact_mod_cast this
  · have : n * 2 ^ j < (16777216 : Nat) := by norm_num at hp2; exact hp2
    exact_mod_cast this
  · have h2 : (2 : G) ≠ 0 := by norm_num
    rw [zpow_sub₀ h2, zpow_natCast]
    push_cast
    field_simp
    ring

theorem IsFloat.neg {G : Type} [LinearOrderedField G] (x : G) (hx : IsFloat x) :
    IsFloat (-x) := by
  obtain ⟨M, k, hM, rfl⟩ := hx
  exact ⟨-M, k, by rwa [abs_neg], by push_cast; ring⟩

/-- Binary32 values are fixed by the rounding. -/
theorem fl32_of_isFloat (x : F) (hx : IsFloat x) : fl32 x = x := by
  have pos : ∀ y : F, IsFloat y → 0 < y → fl32 y = y := by
    intro y hy h0
    obtain ⟨M, k, hM1, hM2, rfl⟩ := IsFloat.normal y hy h0
    have hk : (0 : F) < 2 ^ k := zpow_pos (by norm_num) k
    have hMc1 : (8388608 : F) ≤ M := by exact_mod_cast hM1
    have hMc2 : (M : F) < 16777216 := by exact_mod_cast hM2
    apply fl32_of_unit
    · exact mul_le_mul_of_nonneg_right hMc1 (le_of_lt hk)
    · exact mul_lt_mul_of_pos_right hMc2 hk
    · rw [mul_div_assoc, div_self (ne_of_gt hk), mul_one, sub_self, abs_zero]
      norm_num
  rcases lt_trichotomy x 0 with h | h | h
  · have := pos (-x) (IsFloat.neg x hx) (neg_pos.mpr h)
    rw [fl32_neg] at this
    exact neg_injective this
  · rw [h, fl32_zero]
  · exact pos x hx h

/-- The rounding error is at most `2 ^ (-24)`, relatively. -/
theorem fl32_sub_le (x : F) : |fl32 x - x| ≤ |x| / 16777216 := by
  have pos : ∀ y : F, 0 < y → |fl32 y - y| ≤ y / 16777216 := by
    intro y h0
    obtain ⟨g, hlo, _, hfl, _, _⟩ := fl32_mantissa y h0
    have hu : (0 : F) < 2 ^ g := zpow_pos (by norm_num) g
    have herr := roundEven_sub_le (y / 2 ^ g)
    rw [hfl]
    generalize roundEven (y / (2 : F) ^ g) = Y at herr ⊢
    have hy : y = y / 2 ^ g * 2 ^ g := by field_simp
    rw [abs_le] at herr ⊢
    have a1 := mul_le_mul_of_nonneg_right herr.1 (le_of_lt hu)
    have a2 := mul_le_mul_of_nonneg_right herr.2 (le_of_lt hu)
    rw [sub_mul, ← hy] at a1 a2
    constructor <;> linarith
  rcases lt_trichotomy x 0 with h | h | h
  · have := pos (-x) (neg_pos.mpr h)
    rw [fl32_neg] at this
    rw [abs_of_neg h]
    rwa [← abs_neg, neg_sub, sub_neg_eq_add, neg_add_eq_sub] at this
  · rw [h, fl32_zero]; simp
  · rw [abs_of_pos h]; exact pos x h

theorem fl32_ne_zero (x : F) (hx : x ≠ 0) : fl32 x ≠ 0 := by
  intro h
  have := fl32_sub_le x
  rw [h, zero_sub, abs_neg] at this
  have hpos : 0 < |x| := abs_pos.mpr hx
  rw [le_div_iff₀ (by norm_num)] at this
  linarith

/-- The round trip through the simulation scale on any binary32 value. -/
theorem roundtrip (x : F) (hx : IsFloat x) :
    |fl32 (fl32 (x / 30) * 30) - x| ≤ |x| / 8388608 ∧
    fl32 (fl32 (fl32 (x / 30) * 30) / 30) = fl32 (x / 30) := by
  rcases lt_trichotomy x 0 with h | h | h
  · obtain ⟨M, k, hM1, hM2, hxe⟩ := IsFloat.normal (-x) (IsFloat.neg x hx) (neg_pos.mpr h)
    obtain ⟨r1, r2⟩ := roundtrip_pos (-x) M k hM1 hM2 hxe
    rw [neg_div, fl32_neg, neg_mul, fl32_neg] at r1 r2
    rw [neg_div, fl32_neg, neg_inj] at r2
    refine ⟨?_, r2⟩
    rw [abs_of_neg h, ← abs_neg, neg_sub]
    rwa [sub_neg_eq_add, neg_add_eq_sub] at r1
  · rw [h]
    simp [fl32_zero]
  · obtain ⟨M, k, hM1, hM2, hxe⟩ := IsFloat.normal x hx h
    rw [abs_of_pos h]
    exact roundtrip_pos x M k hM1 hM2 hxe

end Binary32Lemmas

section Binary32Real

variable {F : Type} [LinearOrderedField F] [FloorRing F]

theorem roundEven_add_half (n : Int) :
    roundEven ((n : F) + 1 / 2) = if n % 2 = 0 then n else n + 1 := by
  have hf : ⌊(n : F) + 1 / 2⌋ = n := by
    rw [Int.floor_int_add]
    have : ⌊(1 / 2 : F)⌋ = 0 := by
      rw [Int.floor_eq_iff]; constructor <;> norm_num
    rw [this, add_zero]
  unfold roundEven
  simp only [hf]
  have hr : (n : F) + 1 / 2 - n = 1 / 2 := by ring
  rw [hr]
  simp

theorem fl32_one : fl32 (1 : F) = 1 :=
  fl32_of_isFloat 1 ⟨1, 0, by norm_num, by norm_num⟩

/-- The binary32 value nearest to `π / 2`. -/
theorem fl32_pi_div_two : fl32 (Real.pi / 2) = 13176795 / 8388608 := by
  have h1 := Real.pi_gt_d20
  have h2 := Real.pi_lt_d20
  have e : (2 : ℝ) ^ (-23 : Int) = 1 / 8388608 := by norm_num
  have := fl32_of_unit (Real.pi / 2) (-23) 13176795 (by rw [e]; linarith) (by rw [e]; linarith)
    (by
      rw [e, abs_lt]
      constructor
      · norm_num; linarith
      · norm_num; linarith)
  rw [this, e]
  norm_num

/-- The distance from the binary32 value of `π / 2` to `π / 2`, to 18 digits. -/
theorem angle_gap :
    (4371139000185875 / 10 ^ 23 : ℝ) < 13176795 / 8388608 - Real.pi / 2 ∧
    (13176795 / 8388608 - Real.pi / 2 : ℝ) < 4371139000186375 / 10 ^ 23 := by
  have h1 := Real.pi_gt_d20
  have h2 := Real.pi_lt_d20
  constructor
  · norm_num; linarith
  · norm_num; linarith

/-- The binary32 cosine of the binary32 value of `π / 2` is not zero. -/
theorem fl32_cos_angle :
    fl32 (Real.cos (13176795 / 8388608)) = -(12303662 / 281474976710656) := by
  obtain ⟨g1, g2⟩ := angle_gap
  obtain ⟨ε, hε⟩ : ∃ ε : ℝ, ε = 13176795 / 8388608 - Real.pi / 2 := ⟨_, rfl⟩
  rw [← hε] at g1 g2
  have ha : (13176795 / 8388608 : ℝ) = ε + Real.pi / 2 := by rw [hε]; ring
  have h0 : 0 < ε := lt_trans (by norm_num) g1
  have hs1 : Real.sin ε < ε := Real.sin_lt h0
  have hs2 : ε - ε ^ 3 / 4 < Real.sin ε := Real.sin_gt_sub_cube h0 (by linarith)
  have h3 : ε ^ 3 < (1 / 10 ^ 7) ^ 3 :=
    pow_lt_pow_left₀ (by linarith) (le_of_lt h0) (by norm_num)
  have e : (2 : ℝ) ^ (-48 : Int) = 1 / 281474976710656 := by norm_num
  rw [ha, Real.cos_add_pi_div_two, fl32_neg]
  have := fl32_of_unit (Real.sin ε) (-48) 12303662 (by rw [e]; norm_num at h3 ⊢; linarith)
    (by rw [e]; norm_num at h3 ⊢; linarith)
    (by
      rw [e, abs_lt]
      norm_num at h3 g1 g2 ⊢
      constructor <;> linarith)
  rw [this, e]
  norm_num

/-- The binary32 sine of the binary32 value of `π / 2` is 1. -/
theorem fl32_sin_angle : fl32 (Real.sin (13176795 / 8388608)) = 1 := by
  obtain ⟨g1, g2⟩ := angle_gap
  obtain ⟨ε, hε⟩ : ∃ ε : ℝ, ε = 13176795 / 8388608 - Real.pi / 2 := ⟨_, rfl⟩
  rw [← hε] at g1 g2
  have ha : (13176795 / 8388608 : ℝ) = ε + Real.pi / 2 := by rw [hε]; ring
  have h0 : 0 < ε := lt_trans (by norm_num) g1
  have hc1 : 1 - ε ^ 2 / 2 ≤ Real.cos ε := Real.one_sub_sq_div_two_le_cos
  have hc2 : Real.cos ε ≤ 1 := Real.cos_le_one ε
  have h3 : ε ^ 2 < (1 / 10 ^ 7) ^ 2 :=
    pow_lt_pow_left₀ (by linarith) (le_of_lt h0) (by norm_num)
  have e : (2 : ℝ) ^ (-24 : Int) = 1 / 16777216 := by norm_num
  rw [ha, Real.sin_add_pi_div_two]
  rcases eq_or_lt_of_le hc2 with h | h
  · rw [h, fl32_one]
  · have := fl32_of_unit (Real.cos ε) (-24) 16777216 (by rw [e]; norm_num at h3 ⊢; linarith)
      (by rw [e]; norm_num; linarith)
      (by
        rw [e, abs_lt]
        norm_num at h3 ⊢
        constructor <;> linarith)
    rw [this, e]
    norm_num

/-- Two roundings, of a factor and of the product, stay within `2 ^ (-22)` of
the exact product, relatively. -/
theorem fl32_mul_sub_le (c p : F) : |fl32 (fl32 c * p) - c * p| ≤ |c * p| / 4194304 := by
  have e1 := fl32_sub_le c
  have e2 := fl32_sub_le (fl32 c * p)
  have e3 : |fl32 c * p - c * p| ≤ |c * p| / 16777216 := by
    rw [← sub_mul, abs_mul, abs_mul, mul_div_right_comm]
    exact mul_le_mul_of_nonneg_right e1 (abs_nonneg p)
  have e4 : |fl32 c * p| ≤ |c * p| + |fl32 c * p - c * p| := by
    have := abs_add (c * p) (fl32 c * p - c * p)
    rwa [add_sub_cancel] at this
  have e5 := abs_sub_le (fl32 (fl32 c * p)) (fl32 c * p) (c * p)
  have e6 := abs_nonneg (c * p)
  linarith

theorem launchAngle_right : launchAngle CMath.binary32 ⟨1, 0⟩ = 0 := by
  show fl32 (Complex.arg ⟨1, 0⟩) = 0
  have : (⟨1, 0⟩ : ℂ) = 1 := rfl
  rw [this, Complex.arg_one, fl32_zero]

theorem launchAngle_up : launchAngle CMath.binary32 ⟨0, 1⟩ = 13176795 / 8388608 := by
  show fl32 (Complex.arg ⟨0, 1⟩) = 13176795 / 8388608
  have : (⟨0, 1⟩ : ℂ) = Complex.I := rfl
  rw [this, Complex.arg_I, fl32_pi_div_two]

theorem launchVelocity_right (p : ℝ) (hp : IsFloat p) :
    Binary32.launchVelocity CMath.binary32 0 p = ⟨p, 0⟩ := by
  simp only [Binary32.launchVelocity, CMath.binary32, Real.cos_zero, Real.sin_zero, fl32_one,
    fl32_zero, one_mul, zero_mul, fl32_of_isFloat p hp]

theorem launchVelocity_up (p : ℝ) (hp : IsFloat p) :
    Binary32.launchVelocity CMath.binary32 (13176795 / 8388608) p =
      ⟨fl32 (-(12303662 / 281474976710656) * p), p⟩ := by
  simp only [Binary32.launchVelocity, CMath.binary32, fl32_cos_angle, fl32_sin_angle, one_mul,
    fl32_of_isFloat p hp]

theorem isFloat_twenty : IsFloat (20 : ℝ) := ⟨20, 0, by norm_num, by norm_num⟩

/-- The product of the rounded cosine and the power 20 is a tie between two
binary32 values; it goes to the even mantissa. -/
theorem fl32_cos_mul_twenty :
    fl32 (-(12303662 / 281474976710656) * 20 : ℝ) = -(15379578 / 17592186044416) := by
  have hx : (-(12303662 / 281474976710656) * 20 : ℝ) = -(30759155 / 35184372088832) := by
    norm_num
  have e : (2 : ℝ) ^ (-44 : Int) = 1 / 17592186044416 := by norm_num
  have hq : (30759155 / 35184372088832 : ℝ) / 2 ^ (-44 : Int) = ((15379577 : Int) : ℝ) + 1 / 2 := by
    rw [e]; norm_num
  rw [hx, fl32_neg, fl32_unit _ (-44) (by rw [e]; norm_num) (by rw [e]; norm_num), hq,
    roundEven_add_half, e]
  norm_num

theorem isFloat_sixtyThree : IsFloat (63 : ℚ) := ⟨63, 0, by norm_num, by norm_num⟩

/-- The binary32 quotient 63 / 30 and its product with 30. -/
theorem fl32_sixtyThree :
    fl32 (63 / 30 : ℚ) = 4404019 / 2097152 ∧
    fl32 (4404019 / 2097152 * 30 : ℚ) = 63 - 1 / 262144 := by
  have e1 : (2 : ℚ) ^ (-22 : Int) = 1 / 4194304 := by norm_num
  have e2 : (2 : ℚ) ^ (-18 : Int) = 1 / 262144 := by norm_num
  constructor
  · rw [fl32_of_unit (63 / 30) (-22) 8808038 (by rw [e1]; norm_num) (by rw [e1]; norm_num)
      (by rw [e1, abs_lt]; constructor <;> norm_num), e1]
    norm_num
  · rw [fl32_of_unit (4404019 / 2097152 * 30) (-18) 16515071 (by rw [e2]; norm_num)
      (by rw [e2]; norm_num) (by rw [e2, abs_lt]; constructor <;> norm_num), e2]
    norm_num

end Binary32Real

/-! ## The claims -/

section Claims

variable {F : Type} [LinearOrderedField F]

/-- C1, as stated, fails: a ragdoll launched into the initial scene has six
parts but five joints, not six. -/
theorem createRagdoll_not_six_joints :
    (createRagdoll (setup (0 : ℚ)).world ⟨5 / 3, 55 / 3⟩ ⟨20, 0⟩).1.parts.length = 6 ∧
    (createRagdoll (setup (0 : ℚ)).world ⟨5 / 3, 55 / 3⟩ ⟨20, 0⟩).1.joints.length = 5 ∧
    ¬ (createRagdoll (setup (0 : ℚ)).world ⟨5 / 3, 55 / 3⟩ ⟨20, 0⟩).1.joints.length = 6 := by
  decide

/-- C1 (amended): for every world, spawn position and velocity,
`createRagdoll` returns exactly 6 distinct parts and exactly 5 distinct
joints; the joints connect the torso (`parts[0]`) to the head, the two arms
and the two legs, one joint per non-torso part, so every joint has the torso
as an endpoint and no joint connects two non-torso parts. -/
theorem createRagdoll_torso_star (w : b2World F) (P V : b2Vec2 F) :
    ∃ torso head armL armR legL legR : Nat,
      (createRagdoll w P V).1.parts = [torso, head, armL, armR, legL, legR] ∧
      [torso, head, armL, armR, legL, legR].Nodup ∧
      (createRagdoll w P V).1.joints.length = 5 ∧
      (createRagdoll w P V).1.joints.Nodup ∧
      (createRagdoll w P V).1.joints.map (createRagdoll w P V).2.jointBodies =
        [some (torso, head), some (torso, armL), some (torso, armR),
          some (torso, legL), some (torso, legR)] := by
  rw [createRagdoll_eq]
  refine ⟨w.bodies.length, w.bodies.length + 1, w.bodies.length + 2, w.bodies.length + 3,
    w.bodies.length + 4, w.bodies.length + 5, rfl, ?_, rfl, ?_, ?_⟩
  · simp
  · simp
  · simp only [b2World.jointBodies, List.map, getElem?_length_append,
      getElem?_length_add_append_cons, List.getElem?_cons_succ, List.getElem?_cons_zero,
      Option.map_some']

/-- C2: `BeginContact` keeps the two trigger handles, and it inserts into
`toActivate` exactly when the activation rule holds for one body of the pair:
that body is a trigger body (`boxBody` or `circleBody`), it is STATIC and the
other body is DYNAMIC.  The body inserted is that trigger body; anything new
in `toActivate` is such a trigger body; in every other case `toActivate` is
unchanged, in particular when both bodies are DYNAMIC and when both are
STATIC. -/
theorem BeginContact_rule {G : Type} (l : MyContactListener) (w : b2World G) (c : b2Contact) :
    (l.BeginContact w c).boxBody = l.boxBody ∧
    (l.BeginContact w c).circleBody = l.circleBody ∧
    (ActivationRule l w c.bodyA c.bodyB →
      (l.BeginContact w c).toActivate = l.toActivate.insert c.bodyA) ∧
    (ActivationRule l w c.bodyB c.bodyA →
      (l.BeginContact w c).toActivate = l.toActivate.insert c.bodyB) ∧
    (¬ ActivationRule l w c.bodyA c.bodyB → ¬ ActivationRule l w c.bodyB c.bodyA →
      (l.BeginContact w c).toActivate = l.toActivate) ∧
    (∀ x, x ∈ (l.BeginContact w c).toActivate → x ∉ l.toActivate →
      (x = c.bodyA ∧ ActivationRule l w c.bodyA c.bodyB) ∨
      (x = c.bodyB ∧ ActivationRule l w c.bodyB c.bodyA)) ∧
    (w.GetType c.bodyA = some .b2_dynamicBody → w.GetType c.bodyB = some .b2_dynamicBody →
      (l.BeginContact w c).toActivate = l.toActivate) ∧
    (w.GetType c.bodyA = some .b2_staticBody → w.GetType c.bodyB = some .b2_staticBody →
      (l.BeginContact w c).toActivate = l.toActivate) := by
  simp only [MyContactListener.BeginContact, ActivationRule]
  refine ⟨?_, ?_, ?_, ?_, ?_, ?_, ?_, ?_⟩
  · split_ifs <;> rfl
  · split_ifs <;> rfl
  · rintro ⟨h1, h2, h3⟩
    simp [h1, h2, h3]
  · rintro ⟨h1, h2, h3⟩
    simp [h1, h2, h3]
  · intro hA hB
    split_ifs with h1 h2 h3 h4
    · exact absurd ⟨h1.1, h2, h1.2⟩ hA
    · rfl
    · exact absurd ⟨h3.1, h4, h3.2⟩ hB
    · rfl
    · rfl
  · intro x hx hnx
    split_ifs at hx with h1 h2 h3 h4
    · rcases (StdSet.mem_insert _ _ _).mp hx with rfl | hx
      · exact Or.inl ⟨rfl, h1.1, h2, h1.2⟩
      · exact absurd hx hnx
    · exact absurd hx hnx
    · rcases (StdSet.mem_insert _ _ _).mp hx with rfl | hx
      · exact Or.inr ⟨rfl, h3.1, h4, h3.2⟩
      · exact absurd hx hnx
    · exact absurd hx hnx
    · exact absurd hx hnx
  · intro hA hB
    simp [hA, hB]
  · intro hA hB
    simp [hA, hB]

/-- C3: let `cs` be all the notifications of one step, in any order and
mixed with any other contacts, of which N > 1 qualify for the same trigger
body `t` (static in the world `w` of the step).  After the step `toActivate`
holds `t` exactly once, together with exactly the bodies it held before and
the bodies the other notifications qualify for.  The activation loop, run on
a world `wd` in which `t` is still static, calls `SetType(b2_dynamicBody)` on
`t` exactly once, leaves `t` DYNAMIC, and leaves `toActivate` empty. -/
theorem activation_once (massOnSetType : Bool) (w wd : b2World F) (l : MyContactListener)
    (t : Nat) (cs : List b2Contact)
    (hN : 1 < cs.countP (fun c => decide (Qualifies l w t c)))
    (hd : wd.GetType t = some .b2_staticBody) :
    t ∈ (worldStep w l cs).toActivate ∧
    (worldStep w l cs).toActivate.elems.count t = 1 ∧
    (∀ x, x ∈ (worldStep w l cs).toActivate ↔
      x ∈ l.toActivate ∨ ∃ c ∈ cs, Qualifies l w x c) ∧
    (activationDrain massOnSetType wd (worldStep w l cs)).1.setTypeCalls.count
        (t, .b2_dynamicBody) = wd.setTypeCalls.count (t, .b2_dynamicBody) + 1 ∧
    (activationDrain massOnSetType wd (worldStep w l cs)).1.GetType t =
      some .b2_dynamicBody ∧
    (activationDrain massOnSetType wd (worldStep w l cs)).2.toActivate.elems = [] := by
  have hstep := (worldStep_mem w cs l).2.2
  have hex : ∃ c ∈ cs, Qualifies l w t c := by
    have hpos : 0 < cs.countP (fun c => decide (Qualifies l w t c)) := by omega
    obtain ⟨c, hc, hq⟩ := List.countP_pos_iff.mp hpos
    exact ⟨c, hc, of_decide_eq_true hq⟩
  have hmem : t ∈ (worldStep w l cs).toActivate := (hstep t).mpr (Or.inr hex)
  have hcount := StdSet.count_eq_one _ t hmem
  refine ⟨hmem, hcount, hstep, ?_, ?_, rfl⟩
  · simp only [activationDrain, foldl_promote_setTypeCalls, List.count_append]
    rw [count_setTypeCalls, hcount]
  · obtain ⟨body, hb, -⟩ : ∃ body, wd.bodies[t]? = some body ∧ True := by
      unfold b2World.GetType at hd
      rcases hbt : wd.bodies[t]? with _ | body
      · rw [hbt] at hd; simp at hd
      · exact ⟨body, rfl, trivial⟩
    simp only [activationDrain, b2World.GetType, foldl_promote_getElem?, hb, Option.map_some',
      hcount, Function.iterate_one, promoteBody_type]

/-- C3, run on the scene after one launch, on a mixed step: the torso (7)
and the head (8) both hit the static obstacle box (4), the head also hits the
obstacle circle (6), and an arm (9) touches the obstacle wall (5). -/
theorem activation_once_witness :
    (worldStep launchedState.world launchedState.contactListener
      [⟨4, 7⟩, ⟨8, 6⟩, ⟨8, 4⟩, ⟨5, 9⟩]).toActivate.elems = [4, 6] ∧
    (activationDrain false launchedState.world
        (worldStep launchedState.world launchedState.contactListener
          [⟨4, 7⟩, ⟨8, 6⟩, ⟨8, 4⟩, ⟨5, 9⟩])).1.setTypeCalls.count (4, .b2_dynamicBody) = 1 ∧
    (activationDrain false launchedState.world
        (worldStep launchedState.world launchedState.contactListener
          [⟨4, 7⟩, ⟨8, 6⟩, ⟨8, 4⟩, ⟨5, 9⟩])).1.GetType 4 = some .b2_dynamicBody := by
  have h := activation_once false launchedState.world launchedState.world
    launchedState.contactListener 4 [⟨4, 7⟩, ⟨8, 6⟩, ⟨8, 4⟩, ⟨5, 9⟩] (by decide) (by decide)
  exact ⟨by decide, h.2.2.2.1, h.2.2.2.2.1⟩

/-- C4: in every run of the frame loop from the initial scene, whatever the
events and contacts, every body `b` the activation loop is about to promote
is the obstacle box or the obstacle circle, and after the loop its mass is
strictly positive: 3 * 3 for the box, `b2_pi * 1.5 * 1.5` for the circle.
This holds whether or not the engine recomputes the mass inside `SetType`. -/
theorem promoted_mass_pos (m : CMath F) (massOnSetType : Bool) (t0 : F)
    (inputs : List (FrameInput F)) (events : List (Event × F × (Int × Int))) (b : Nat)
    (hb : b ∈ (pollEvents m (mainLoop m massOnSetType (setup t0) inputs)
      events).contactListener.toActivate) :
    ∃ mass : F,
      (activationDrain massOnSetType
        (pollEvents m (mainLoop m massOnSetType (setup t0) inputs) events).world
        (pollEvents m (mainLoop m massOnSetType (setup t0) inputs)
          events).contactListener).1.GetMass b = some mass ∧
      0 < mass ∧
      ((b = (setup t0).boxBody ∧ mass = 3 * 3) ∨
        (b = (setup t0).circleBody ∧ mass = b2_pi * 1.5 * 1.5)) := by
  obtain ⟨_, _, h3, h4, h5, _⟩ :=
    pollEvents_inv m events _ (mainLoop_inv m massOnSetType inputs _ (setup_inv t0))
  obtain ⟨_, hbox, hcircle, _⟩ := setup_world t0
  rcases h3 b hb with rfl | rfl
  · refine ⟨3 * 3, ?_, by norm_num, Or.inl ⟨hbox.symm, rfl⟩⟩
    rw [← boxFixture_mass]
    exact (BodyOK_drain massOnSetType _ _ 4 boxFixture h4).2 hb
  · refine ⟨b2_pi * 1.5 * 1.5, ?_, ?_, Or.inr ⟨hcircle.symm, rfl⟩⟩
    · rw [← circleFixture_mass]
      exact (BodyOK_drain massOnSetType _ _ 6 circleFixture h5).2 hb
    · have hpi : (0 : F) < b2_pi := b2_pi_pos
      positivity

/-- C4, run on `sampleFrame`: the box (4) and the circle (6) were hit during
the step and are both promoted by the next activation loop. -/
theorem promoted_mass_pos_witness :
    (4 ∈ (pollEvents CMath.axis (mainLoop CMath.axis false (setup 0) [sampleFrame])
        []).contactListener.toActivate ∧
      ∃ mass : ℚ,
        (activationDrain false
          (pollEvents CMath.axis (mainLoop CMath.axis false (setup 0) [sampleFrame]) []).world
          (pollEvents CMath.axis (mainLoop CMath.axis false (setup 0) [sampleFrame])
            []).contactListener).1.GetMass 4 = some mass ∧
        0 < mass ∧
        ((4 = (setup (0 : ℚ)).boxBody ∧ mass = 3 * 3) ∨
          (4 = (setup (0 : ℚ)).circleBody ∧ mass = b2_pi * 1.5 * 1.5))) ∧
    (6 ∈ (pollEvents CMath.axis (mainLoop CMath.axis false (setup 0) [sampleFrame])
        []).contactListener.toActivate ∧
      ∃ mass : ℚ,
        (activationDrain false
          (pollEvents CMath.axis (mainLoop CMath.axis false (setup 0) [sampleFrame]) []).world
          (pollEvents CMath.axis (mainLoop CMath.axis false (setup 0) [sampleFrame])
            []).contactListener).1.GetMass 6 = some mass ∧
        0 < mass ∧
        ((6 = (setup (0 : ℚ)).boxBody ∧ mass = 3 * 3) ∨
          (6 = (setup (0 : ℚ)).circleBody ∧ mass = b2_pi * 1.5 * 1.5))) :=
  ⟨⟨by decide, promoted_mass_pos CMath.axis false 0 [sampleFrame] [] 4 (by decide)⟩,
    ⟨by decide, promoted_mass_pos CMath.axis false 0 [sampleFrame] [] 6 (by decide)⟩⟩

/-- C5: the launch power is `min(20, 6 + heldSeconds * 14)`; it is 6, 20, 20,
20 for a hold of 0, 1, 2, 5 seconds and exactly 20 for every hold of at least
one second. -/
theorem launchPower_clamp :
    launchPower (0 : F) = 6 ∧ launchPower (1 : F) = 20 ∧ launchPower (2 : F) = 20 ∧
    launchPower (5 : F) = 20 ∧
    (∀ t : F, 1 ≤ t → launchPower t = 20) ∧
    (∀ t : F, launchPower t = min 20 (6 + t * 14)) := by
  have hmin : ∀ t : F, launchPower t = min 20 (6 + t * 14) := by
    intro t
    unfold launchPower std_min
    simp only
    split_ifs with h
    · exact (min_eq_right (le_of_lt h)).symm
    · exact (min_eq_left (not_lt.mp h)).symm
  have hge : ∀ t : F, 1 ≤ t → launchPower t = 20 := by
    intro t ht
    rw [hmin]
    apply min_eq_left
    linarith
  refine ⟨?_, hge 1 le_rfl, hge 2 (by norm_num), hge 5 (by norm_num), hge, hmin⟩
  rw [hmin]; norm_num

/-- C6: from any state, a left press at time `t0` followed by a left
release at time `t0 + 1` with the mouse at `cannonPos + (k, -k)`, `k > 0`,
launches exactly one ragdoll: power 20, angle `-π/4`, spawn position
`sfToB2 (50, HEIGHT - 50) = (50/30, 550/30)`, velocity
`(20 cos(-π/4), 20 sin(-π/4))`; the one `createRagdoll` call yields the new
world and the one ragdoll appended to `ragdolls`. -/
theorem press_release_launch (s : MainState ℝ) (t0 : ℝ) (mouse0 : Int × Int) (k : Int)
    (hk : 0 < k) :
    launchPower (t0 + 1 - t0) = 20 ∧
    launchAngle CMath.real
      ((⟨((50 + k : Int) : ℝ), ((550 - k : Int) : ℝ)⟩ : Vector2f ℝ) - cannonPos) =
        -(Real.pi / 4) ∧
    sfToB2 (cannonPos : Vector2f ℝ) = ⟨50 / 30, 550 / 30⟩ ∧
    (pollEvents CMath.real s
        [(.MouseButtonPressed .Left, t0, mouse0),
          (.MouseButtonReleased .Left, t0 + 1, (50 + k, 550 - k))]).ragdolls =
      s.ragdolls ++ [(createRagdoll s.world ⟨50 / 30, 550 / 30⟩
        ⟨20 * Real.cos (-(Real.pi / 4)), 20 * Real.sin (-(Real.pi / 4))⟩).1] ∧
    (pollEvents CMath.real s
        [(.MouseButtonPressed .Left, t0, mouse0),
          (.MouseButtonReleased .Left, t0 + 1, (50 + k, 550 - k))]).world =
      (createRagdoll s.world ⟨50 / 30, 550 / 30⟩
        ⟨20 * Real.cos (-(Real.pi / 4)), 20 * Real.sin (-(Real.pi / 4))⟩).2 := by
  have hpow : launchPower (t0 + 1 - t0 : ℝ) = 20 := by
    unfold launchPower std_min
    simp only
    rw [if_neg]
    norm_num
  have hdir : ((⟨((50 + k : Int) : ℝ), ((550 - k : Int) : ℝ)⟩ : Vector2f ℝ) - cannonPos) =
      ⟨(k : ℝ), -(k : ℝ)⟩ := by
    show (⟨_ - _, _ - _⟩ : Vector2f ℝ) = _
    simp only [cannonPos, HEIGHT]
    push_cast
    congr 1 <;> ring
  have hang : launchAngle CMath.real
      ((⟨((50 + k : Int) : ℝ), ((550 - k : Int) : ℝ)⟩ : Vector2f ℝ) - cannonPos) =
        -(Real.pi / 4) := by
    rw [hdir]
    exact atan2_diag (k : ℝ) (by exact_mod_cast hk)
  have hspawn : sfToB2 (cannonPos : Vector2f ℝ) = ⟨50 / 30, 550 / 30⟩ := by
    simp only [sfToB2, cannonPos, HEIGHT, SCALE]
    norm_num
  have hvel : launchVelocity CMath.real
      (launchAngle CMath.real
        ((⟨((50 + k : Int) : ℝ), ((550 - k : Int) : ℝ)⟩ : Vector2f ℝ) - cannonPos))
      (launchPower (t0 + 1 - t0)) =
      ⟨20 * Real.cos (-(Real.pi / 4)), 20 * Real.sin (-(Real.pi / 4))⟩ := by
    rw [hang, hpow]
    simp only [launchVelocity, CMath.real, mul_comm]
  refine ⟨hpow, hang, hspawn, ?_, ?_⟩
  · simp only [pollEvents, List.foldl, handleEvent, onRelease]
    rw [hvel, hspawn]
  · simp only [pollEvents, List.foldl, handleEvent, onRelease]
    rw [hvel, hspawn]

/-- C6, run on the initial scene with the mouse one pixel right of and one
pixel above the cannon. -/
theorem press_release_launch_witness :
    (pollEvents CMath.real (setup 0)
        [(.MouseButtonPressed .Left, 0, (51, 549)),
          (.MouseButtonReleased .Left, 0 + 1, (50 + 1, 550 - 1))]).ragdolls =
      (setup (0 : ℝ)).ragdolls ++ [(createRagdoll (setup (0 : ℝ)).world ⟨50 / 30, 550 / 30⟩
        ⟨20 * Real.cos (-(Real.pi / 4)), 20 * Real.sin (-(Real.pi / 4))⟩).1] :=
  (press_release_launch (setup 0) 0 (51, 549) 1 (by decide)).2.2.2.1

/-- C7, as stated, fails in binary32: for the aim direction (0, 1) the angle
`atan2(1, 0)` is the `float` nearest to `π/2`, which is not `π/2`, its cosine
is not 0, and at power 20 the velocity is `(-15379578 / 2 ^ 44, 20)`, about
`(-8.74e-07, 20)`, not `(0, 20)`. -/
theorem launch_velocity_up_not_exact :
    launchAngle CMath.binary32 ⟨0, 1⟩ ≠ Real.pi / 2 ∧
    Binary32.launchVelocity CMath.binary32 (launchAngle CMath.binary32 ⟨0, 1⟩) 20 =
      ⟨-(15379578 / 17592186044416), 20⟩ ∧
    Binary32.launchVelocity CMath.binary32 (launchAngle CMath.binary32 ⟨0, 1⟩) 20 ≠ ⟨0, 20⟩ := by
  have hv : Binary32.launchVelocity CMath.binary32 (launchAngle CMath.binary32 ⟨0, 1⟩) 20 =
      ⟨-(15379578 / 17592186044416), 20⟩ := by
    rw [launchAngle_up, launchVelocity_up 20 isFloat_twenty, fl32_cos_mul_twenty]
  refine ⟨?_, hv, ?_⟩
  · rw [launchAngle_up]
    have := angle_gap.1
    intro h
    rw [h, sub_self] at this
    norm_num at this
  · rw [hv]
    intro h
    have := congrArg b2Vec2.x h
    norm_num at this

/-- C7 (amended): in binary32, for every power `p` that is a `float`, the
launch velocity is `(cos(angle) * p, sin(angle) * p)` with
`angle = atan2(dir.y, dir.x)`, each of the three rounded, so that each
component is within `2 ^ (-22)` of the exact product, relatively; for the aim
direction (1, 0) the angle is 0 and the velocity exactly `(p, 0)`; for (0, 1)
the angle is `13176795 / 2 ^ 23`, within `2 ^ (-24)` of `π/2`, and the velocity
is `(vx, p)` with `vx` the rounded product of `-12303662 / 2 ^ 48` and `p`: at
most `2 ^ (-24) |p|` in magnitude, and not 0 unless `p` is. -/
theorem launch_velocity_binary32 (p : ℝ) (hp : IsFloat p) :
    (∀ dir : Vector2f ℝ,
      launchAngle CMath.binary32 dir = fl32 (Complex.arg ⟨dir.x, dir.y⟩) ∧
      |(Binary32.launchVelocity CMath.binary32 (launchAngle CMath.binary32 dir) p).x -
          Real.cos (launchAngle CMath.binary32 dir) * p| ≤
        |Real.cos (launchAngle CMath.binary32 dir) * p| / 4194304 ∧
      |(Binary32.launchVelocity CMath.binary32 (launchAngle CMath.binary32 dir) p).y -
          Real.sin (launchAngle CMath.binary32 dir) * p| ≤
        |Real.sin (launchAngle CMath.binary32 dir) * p| / 4194304) ∧
    launchAngle CMath.binary32 ⟨1, 0⟩ = 0 ∧
    Binary32.launchVelocity CMath.binary32 (launchAngle CMath.binary32 ⟨1, 0⟩) p = ⟨p, 0⟩ ∧
    launchAngle CMath.binary32 ⟨0, 1⟩ = 13176795 / 8388608 ∧
    |(13176795 / 8388608 : ℝ) - Real.pi / 2| < 1 / 16777216 ∧
    Binary32.launchVelocity CMath.binary32 (launchAngle CMath.binary32 ⟨0, 1⟩) p =
      ⟨fl32 (-(12303662 / 281474976710656) * p), p⟩ ∧
    |fl32 (-(12303662 / 281474976710656) * p)| ≤ |p| / 16777216 ∧
    (p ≠ 0 → fl32 (-(12303662 / 281474976710656) * p) ≠ 0) := by
  refine ⟨fun dir => ⟨rfl, fl32_mul_sub_le _ p, fl32_mul_sub_le _ p⟩, launchAngle_right, ?_,
    launchAngle_up, ?_, ?_, ?_, ?_⟩
  · rw [launchAngle_right, launchVelocity_right p hp]
  · obtain ⟨g1, g2⟩ := angle_gap
    rw [abs_lt]
    constructor
    · exact lt_trans (by norm_num) g1
    · exact lt_trans g2 (by norm_num)
  · rw [launchAngle_up, launchVelocity_up p hp]
  · have e1 := fl32_sub_le (-(12303662 / 281474976710656) * p)
    have e2 : |(-(12303662 / 281474976710656) * p : ℝ)| = 12303662 / 281474976710656 * |p| := by
      rw [abs_mul, abs_neg, abs_of_pos (by norm_num)]
    have e3 := abs_sub_abs_le_abs_sub (fl32 (-(12303662 / 281474976710656) * p))
      (-(12303662 / 281474976710656) * p)
    have e4 := abs_nonneg p
    rw [e2] at e1 e3
    linarith
  · intro h0
    exact fl32_ne_zero _ (mul_ne_zero (by norm_num) h0)

/-- C7 (amended), at power 20: aiming along (1, 0) launches with velocity
exactly (20, 0). -/
theorem launch_velocity_binary32_witness :
    IsFloat (20 : ℝ) ∧
    Binary32.launchVelocity CMath.binary32 (launchAngle CMath.binary32 ⟨1, 0⟩) 20 = ⟨20, 0⟩ :=
  ⟨isFloat_twenty, (launch_velocity_binary32 20 isFloat_twenty).2.2.1⟩

/-- C8: the layout of the rig for spawn position `P` (y grows downward):
torso box 0.6 x 1.2 at `P`; head circle of radius 0.35 at
`P + (0, -(0.6 + 0.35))`; arm boxes 0.3 x 0.6 at `P + (∓0.45, -0.3)`; leg boxes
0.3 x 0.6 at `P + (∓0.15, 0.9)`; the neck joins torso and head at
`P + (0, -0.6)`, the shoulders join torso and arms at `P + (∓0.3, -0.3)`, the
hips join torso and legs at `P + (∓0.15, 0.6)`. -/
theorem createRagdoll_layout (w : b2World F) (P V : b2Vec2 F) :
    ∃ torso head armL armR legL legR neck shoulderL shoulderR hipL hipR : Nat,
      (createRagdoll w P V).1.parts = [torso, head, armL, armR, legL, legR] ∧
      (createRagdoll w P V).1.joints = [neck, shoulderL, shoulderR, hipL, hipR] ∧
      [torso, head, armL, armR, legL, legR].map (createRagdoll w P V).2.GetPosition =
        [some P, some (P + ⟨0, -(0.6 + 0.35)⟩),
          some (P + ⟨-0.45, -0.3⟩), some (P + ⟨0.45, -0.3⟩),
          some (P + ⟨-0.15, 0.9⟩), some (P + ⟨0.15, 0.9⟩)] ∧
      [torso, head, armL, armR, legL, legR].map (createRagdoll w P V).2.GetShapes =
        [some [box 0.6 1.2], some [.e_circle 0.35],
          some [box 0.3 0.6], some [box 0.3 0.6],
          some [box 0.3 0.6], some [box 0.3 0.6]] ∧
      [neck, shoulderL, shoulderR, hipL, hipR].map (createRagdoll w P V).2.jointBodies =
        [some (torso, head), some (torso, armL), some (torso, armR),
          some (torso, legL), some (torso, legR)] ∧
      [neck, shoulderL, shoulderR, hipL, hipR].map (createRagdoll w P V).2.jointAnchor =
        [some (P + ⟨0, -0.6⟩), some (P + ⟨-0.3, -0.3⟩), some (P + ⟨0.3, -0.3⟩),
          some (P + ⟨-0.15, 0.6⟩), some (P + ⟨0.15, 0.6⟩)] := by
  rw [createRagdoll_eq]
  refine ⟨w.bodies.length, w.bodies.length + 1, w.bodies.length + 2, w.bodies.length + 3,
    w.bodies.length + 4, w.bodies.length + 5, w.joints.length, w.joints.length + 1,
    w.joints.length + 2, w.joints.length + 3, w.joints.length + 4, rfl, rfl, ?_, ?_, ?_, ?_⟩
  · simp only [b2World.GetPosition, List.map, getElem?_length_append,
      getElem?_length_add_append_cons, List.getElem?_cons_succ, List.getElem?_cons_zero,
      Option.map_some', ragdollPart, b2Vec2.add_def]
    norm_num
  · simp only [b2World.GetShapes, List.map, getElem?_length_append,
      getElem?_length_add_append_cons, List.getElem?_cons_succ, List.getElem?_cons_zero,
      Option.map_some', ragdollPart, box]
  · simp only [b2World.jointBodies, List.map, getElem?_length_append,
      getElem?_length_add_append_cons, List.getElem?_cons_succ, List.getElem?_cons_zero,
      Option.map_some']
  · simp only [b2World.jointAnchor, List.map, getElem?_length_append,
      getElem?_length_add_append_cons, List.getElem?_cons_succ, List.getElem?_cons_zero,
      Option.map_some', b2Vec2.add_def]
    norm_num

/-- C9, as stated, fails in binary32: the conversions are not mutually
inverse.  At the pixel (63, 63), a pair of `float` values, `sfToB2` gives
`4404019 / 2 ^ 21` twice and `b2ToSf` takes that to `63 - 2 ^ (-18)`, about
62.999996, not to 63. -/
theorem scale_not_inverse :
    IsFloat (63 : ℚ) ∧
    Binary32.b2ToSf (Binary32.sfToB2 (⟨63, 63⟩ : Vector2f ℚ)) =
      ⟨63 - 1 / 262144, 63 - 1 / 262144⟩ ∧
    Binary32.b2ToSf (Binary32.sfToB2 (⟨63, 63⟩ : Vector2f ℚ)) ≠ ⟨63, 63⟩ := by
  have hv : Binary32.b2ToSf (Binary32.sfToB2 (⟨63, 63⟩ : Vector2f ℚ)) =
      ⟨63 - 1 / 262144, 63 - 1 / 262144⟩ := by
    simp only [Binary32.b2ToSf, Binary32.sfToB2, SCALE, fl32_sixtyThree.1, fl32_sixtyThree.2]
  refine ⟨isFloat_sixtyThree, hv, ?_⟩
  rw [hv]
  intro h
  have := congrArg Vector2f.x h
  norm_num at this

/-- C9 (amended): in binary32, for every screen position `S` whose
coordinates are `float` values, `sfToB2 (b2ToSf (sfToB2 S)) = sfToB2 S`
exactly, and `b2ToSf (sfToB2 S)` is `S` up to rounding: each coordinate is
within `2 ^ (-23)` of that of `S`, relatively. -/
theorem scale_roundtrip_binary32 {G : Type} [LinearOrderedField G] [FloorRing G]
    (S : Vector2f G) (hx : IsFloat S.x) (hy : IsFloat S.y) :
    Binary32.sfToB2 (Binary32.b2ToSf (Binary32.sfToB2 S)) = Binary32.sfToB2 S ∧
    |(Binary32.b2ToSf (Binary32.sfToB2 S)).x - S.x| ≤ |S.x| / 8388608 ∧
    |(Binary32.b2ToSf (Binary32.sfToB2 S)).y - S.y| ≤ |S.y| / 8388608 := by
  obtain ⟨x1, x2⟩ := roundtrip S.x hx
  obtain ⟨y1, y2⟩ := roundtrip S.y hy
  refine ⟨?_, x1, y1⟩
  simp only [Binary32.b2ToSf, Binary32.sfToB2, SCALE, x2, y2]

/-- C9 (amended), at the pixel (63, 63), where `b2ToSf (sfToB2 S)` is not
`S`: the three-step identity holds. -/
theorem scale_roundtrip_binary32_witness :
    IsFloat (63 : ℚ) ∧
    Binary32.sfToB2 (Binary32.b2ToSf (Binary32.sfToB2 (⟨63, 63⟩ : Vector2f ℚ))) =
      Binary32.sfToB2 ⟨63, 63⟩ :=
  ⟨isFloat_sixtyThree,
    (scale_roundtrip_binary32 ⟨63, 63⟩ isFloat_sixtyThree isFloat_sixtyThree).1⟩

/-- C10, as stated, fails: after `sampleFrame` the one ragdoll is drawn with
its torso cyan and its head magenta, so no single fill colour is shared by
all draw calls of the ragdoll pass. -/
theorem ragdoll_colours_not_uniform :
    ¬ ∃ c : Color,
      ∀ d ∈ renderRagdolls (mainLoop CMath.axis false (setup 0) [sampleFrame]).world
        (mainLoop CMath.axis false (setup 0) [sampleFrame]).ragdolls, d.fillColor = c := by
  rintro ⟨c, hc⟩
  have h1 := hc ⟨7, .ConvexShape, .Cyan⟩ (by decide)
  have h2 := hc ⟨8, .CircleShape, .Magenta⟩ (by decide)
  simp only at h1 h2
  rw [← h1] at h2
  exact absurd h2 (by decide)

/-- C10 (amended): in every run of the frame loop from the initial scene,
every ragdoll is drawn by the ragdoll pass as six shapes, one per part: the
torso, both arms and both legs as convex shapes filled cyan, the head as a
circle filled magenta, whichever ragdoll it is. -/
theorem ragdoll_fill_colours (m : CMath F) (massOnSetType : Bool) (t0 : F)
    (inputs : List (FrameInput F)) (rag : Ragdoll)
    (hrag : rag ∈ (mainLoop m massOnSetType (setup t0) inputs).ragdolls) :
    ∃ torso head armL armR legL legR : Nat,
      rag.parts = [torso, head, armL, armR, legL, legR] ∧
      renderRagdolls (mainLoop m massOnSetType (setup t0) inputs).world [rag] =
        [⟨torso, .ConvexShape, .Cyan⟩, ⟨head, .CircleShape, .Magenta⟩,
          ⟨armL, .ConvexShape, .Cyan⟩, ⟨armR, .ConvexShape, .Cyan⟩,
          ⟨legL, .ConvexShape, .Cyan⟩, ⟨legR, .ConvexShape, .Cyan⟩] :=
  renderRagdolls_of_ok _ rag
    ((mainLoop_inv m massOnSetType inputs _ (setup_inv t0)).2.2.2.2.2 rag hrag)

/-- C10 (amended), run on `sampleFrame`: the ragdoll with parts 7 to 12. -/
theorem ragdoll_fill_colours_witness :
    (⟨[7, 8, 9, 10, 11, 12], [0, 1, 2, 3, 4]⟩ : Ragdoll) ∈
      (mainLoop CMath.axis false (setup 0) [sampleFrame]).ragdolls ∧
    ∃ torso head armL armR legL legR : Nat,
      [7, 8, 9, 10, 11, 12] = [torso, head, armL, armR, legL, legR] ∧
      renderRagdolls (mainLoop CMath.axis false (setup 0) [sampleFrame]).world
          [⟨[7, 8, 9, 10, 11, 12], [0, 1, 2, 3, 4]⟩] =
        [⟨torso, .ConvexShape, .Cyan⟩, ⟨head, .CircleShape, .Magenta⟩,
          ⟨armL, .ConvexShape, .Cyan⟩, ⟨armR, .ConvexShape, .Cyan⟩,
          ⟨legL, .ConvexShape, .Cyan⟩, ⟨legR, .ConvexShape, .Cyan⟩] :=
  ⟨by decide, ragdoll_fill_colours CMath.axis false 0 [sampleFrame]
    ⟨[7, 8, 9, 10, 11, 12], [0, 1, 2, 3, 4]⟩ (by decide)⟩

end Claims

end Unidad4
